import Mathlib

/-!
# kubeswap: a verification development

The program (`main.go`) swaps the file `<home>/.kube/config` with a replacement
file, keeping a timestamped copy under `<home>/.kube/kubeswap_backups`, and lists
those copies.

The program's own functions (`init`, `swapConfig`, `listConfigs`, `copyFile`, the
two `Run` closures) are embedded as state-passing functions over a `World`: a
file system and the lines written to standard output.  What they call from the
Go standard library (`os.MkdirAll`, `os.Open`, `os.Create`, `io.Copy`,
`os.ReadDir`, `time.Now().Format`) is given an executable model here.

Modelling decisions for the environment:
* a path is the list of its components from the root (already resolved: no
  relative paths, no `.`/`..`, no symbolic or hard links), so two different
  lists denote two different objects;
* a file system is an association list from paths to nodes; the first binding of
  a path is the node at that path;
* a node carries the access rights (read, write, search) of the calling process;
* new directories get mode 0755 and new files 0666 under the usual umask, i.e.
  `rwx` and `rw-` for the caller;
* the clock reading and the number of bytes the device accepts before a write
  error are explicit arguments.
-/

namespace Kubeswap

/-! ## File system -/

abbrev Bytes := List UInt8

abbrev Path := List String

/-- Access rights of the calling process on a node. -/
structure Perm where
  r : Bool
  w : Bool
  x : Bool
  deriving DecidableEq, Repr

inductive Node where
  | file (perm : Perm) (data : Bytes)
  | dir (perm : Perm)
  deriving DecidableEq, Repr

abbrev FS := List (Path × Node)

/-- The node at a path: the first binding of the path. -/
def lookup : FS → Path → Option Node
  | [], _ => none
  | (q, n) :: rest, p => if q = p then some n else lookup rest p

/-- Bind a path to a node: replace its first binding, or add one at the end. -/
def store : FS → Path → Node → FS
  | [], p, n => [(p, n)]
  | (q, m) :: rest, p, n => if q = p then (q, n) :: rest else (q, m) :: store rest p n

deriving instance DecidableEq for Except

inductive Errno where
  | ENOENT
  | ENOTDIR
  | EACCES
  | EISDIR
  | EEXIST
  | ENOSPC
  deriving DecidableEq, Repr

def Errno.message : Errno → String
  | .ENOENT => "no such file or directory"
  | .ENOTDIR => "not a directory"
  | .EACCES => "permission denied"
  | .EISDIR => "is a directory"
  | .EEXIST => "file exists"
  | .ENOSPC => "no space left on device"

/-- Rendering of a path, as `filepath.Join` produces it. -/
def pathString (p : Path) : String := "/" ++ "/".intercalate p

/-- Go errors: an `*fs.PathError` around an error number, an `*fs.PathError` around
the `*os.SyscallError` of a named system call, or an error wrapped by
`fmt.Errorf("<msg>: %w", err)`. -/
inductive Error where
  | path (op : String) (path : Path) (errno : Errno)
  | syscallPath (op : String) (path : Path) (call : String) (errno : Errno)
  | wrap (msg : String) (cause : Error)
  deriving DecidableEq, Repr

/-- The method `Error()` of a Go error. -/
def Error.message : Error → String
  | .path op p e => op ++ " " ++ pathString p ++ ": " ++ e.message
  | .syscallPath op p call e => op ++ " " ++ pathString p ++ ": " ++ call ++ ": " ++ e.message
  | .wrap msg cause => msg ++ ": " ++ cause.message

/-- Path resolution: starting at directory `cur`, every component but the last of
`rest` is looked up in a directory the caller may search. -/
def walk (fs : FS) (cur : Path) : List String → Except Errno Unit
  | [] => .ok ()
  | name :: rest =>
    match lookup fs cur with
    | some (.dir perm) => if perm.x then walk fs (cur ++ [name]) rest else .error .EACCES
    | some (.file _ _) => .error .ENOTDIR
    | none => .error .ENOENT

/-- The system call `stat`: the node a path resolves to. -/
def stat (fs : FS) (p : Path) : Except Errno Node :=
  match walk fs [] p with
  | .error e => .error e
  | .ok () =>
    match lookup fs p with
    | some n => .ok n
    | none => .error .ENOENT

/-- Mode 0755 for the caller. -/
def dirPerm : Perm := ⟨true, true, true⟩

/-- Mode 0666 for the caller. -/
def filePerm : Perm := ⟨true, true, false⟩

namespace os

/-- Model of `os.Mkdir(path, 0755)`. -/
def Mkdir (fs : FS) (p : Path) : Except Error FS :=
  match walk fs [] p with
  | .error e => .error (.path "mkdir" p e)
  | .ok () =>
    match lookup fs p with
    | some _ => .error (.path "mkdir" p .EEXIST)
    | none =>
      match lookup fs p.dropLast with
      | some (.dir perm) =>
        if perm.w then .ok (store fs p (.dir dirPerm)) else .error (.path "mkdir" p .EACCES)
      | _ => .error (.path "mkdir" p .ENOENT)

/-- The last step of `os.MkdirAll`: `Mkdir`, and when it fails a second look at
the path, which may be a directory by now. -/
def mkdirLast (fs : FS) (p : Path) : Option Error × FS :=
  match Mkdir fs p with
  | .ok fs1 => (none, fs1)
  | .error e =>
    match stat fs p with
    | .ok (.dir _) => (none, fs)
    | _ => (some e, fs)

/-- Model of `os.MkdirAll` on the reversed path (last component first), so that the
recursion on the parent is structural.  Directories made before a failure stay. -/
def MkdirAllRev (fs : FS) : List String → Option Error × FS
  | [] =>
    match stat fs [] with
    | .ok (.dir _) => (none, fs)
    | .ok (.file _ _) => (some (.path "mkdir" [] .ENOTDIR), fs)
    | .error _ => mkdirLast fs []
  | name :: parent =>
    match stat fs (name :: parent).reverse with
    | .ok (.dir _) => (none, fs)
    | .ok (.file _ _) => (some (.path "mkdir" (name :: parent).reverse .ENOTDIR), fs)
    | .error _ =>
      match MkdirAllRev fs parent with
      | (some e, fs1) => (some e, fs1)
      | (none, fs1) => mkdirLast fs1 (name :: parent).reverse

/-- Model of `os.MkdirAll(path, 0755)`. -/
def MkdirAll (fs : FS) (p : Path) : Option Error × FS := MkdirAllRev fs p.reverse

/-- Model of `os.Open(name)`: a handle for reading, here the resolved path. -/
def Open (fs : FS) (p : Path) : Except Error Path :=
  match stat fs p with
  | .error e => .error (.path "open" p e)
  | .ok (.file perm _) => if perm.r then .ok p else .error (.path "open" p .EACCES)
  | .ok (.dir perm) => if perm.r then .ok p else .error (.path "open" p .EACCES)

/-- Model of `os.Create(name)`: open for reading and writing, create with mode 0666 if
absent, truncate if present. -/
def Create (fs : FS) (p : Path) : Except Error (Path × FS) :=
  match walk fs [] p with
  | .error e => .error (.path "open" p e)
  | .ok () =>
    match lookup fs p with
    | some (.dir _) => .error (.path "open" p .EISDIR)
    | some (.file perm _) =>
      if perm.r && perm.w then .ok (p, store fs p (.file perm [])) else .error (.path "open" p .EACCES)
    | none =>
      match lookup fs p.dropLast with
      | some (.dir perm) =>
        if perm.w then .ok (p, store fs p (.file filePerm [])) else .error (.path "open" p .EACCES)
      | _ => .error (.path "open" p .ENOENT)

/-- Insertion of a name into a list of names sorted by `<`, the order of strings
character by character. -/
def insertName (a : String) : List String → List String
  | [] => [a]
  | b :: rest =>
    if a.data < b.data then a :: b :: rest else if a = b then b :: rest else b :: insertName a rest

/-- Names of the bindings directly below `d`, sorted, each once. -/
def children (d : Path) : FS → List String
  | [] => []
  | (q, _) :: rest =>
    match q.getLast? with
    | some name => if q.dropLast = d then insertName name (children d rest) else children d rest
    | none => children d rest

/-- Model of `os.ReadDir(name)`: the entry names of a directory, sorted by name. -/
def ReadDir (fs : FS) (d : Path) : Except Error (List String) :=
  match stat fs d with
  | .error e => .error (.path "open" d e)
  | .ok (.file _ _) => .error (.path "readdirent" d .ENOTDIR)
  | .ok (.dir perm) => if perm.r then .ok (children d fs) else .error (.path "open" d .EACCES)

end os

/-- Contents of a file after `written` is written at offset 0 over `old`. -/
def writeAt (old written : Bytes) : Bytes := written ++ old.drop written.length

/-- Model of `io.Copy(dst, src)` on two open handles: read the source to its end and write
what was read to the destination.  `limit = some k` is a device that accepts `k`
bytes and then fails; `none` is a device that never fails.  A source that is a
directory makes the copy fail in the system call `copy_file_range`, reported
as a write error on the destination, with nothing written. -/
def ioCopy (limit : Option Nat) (dst src : Path) (fs : FS) : Option Error × FS :=
  match lookup fs src with
  | some (.file _ data) =>
    match lookup fs dst with
    | some (.file perm old) =>
      match limit with
      | some k =>
        if k < data.length then
          (some (.path "write" dst .ENOSPC), store fs dst (.file perm (writeAt old (data.take k))))
        else (none, store fs dst (.file perm (writeAt old data)))
      | none => (none, store fs dst (.file perm (writeAt old data)))
    | _ => (some (.path "write" dst .EISDIR), fs)
  | some (.dir _) => (some (.syscallPath "write" dst "copy_file_range" .EISDIR), fs)
  | none => (some (.path "read" src .ENOENT), fs)

/-! ## Clock -/

/-- A reading of the local clock. -/
structure Time where
  year : Nat
  month : Nat
  day : Nat
  hour : Nat
  minute : Nat
  second : Nat
  nanosecond : Nat
  deriving DecidableEq, Repr

/-- Decimal digits of `n`, with zeros in front up to `width` digits. -/
def zeroPad (width n : Nat) : String :=
  "".pushn '0' (width - (Nat.repr n).length) ++ Nat.repr n

/-- Model of `t.Format("20060102_150405")`. -/
def Time.Format (t : Time) : String :=
  zeroPad 4 t.year ++ zeroPad 2 t.month ++ zeroPad 2 t.day ++ "_" ++
    zeroPad 2 t.hour ++ zeroPad 2 t.minute ++ zeroPad 2 t.second

/-! ## The program -/

structure World where
  fs : FS
  stdout : List String
  deriving DecidableEq, Repr

/-- The variable `kubeConfigPath`, as `init` sets it from the home directory. -/
def kubeConfigPath (home : Path) : Path := home ++ [".kube", "config"]

/-- The variable `backupDir`, as `init` sets it from the home directory. -/
def backupDir (home : Path) : Path := home ++ [".kube", "kubeswap_backups"]

/-- The local `backupPath` of `swapConfig`. -/
def backupPath (home : Path) (now : Time) : Path :=
  backupDir home ++ ["config_backup_" ++ now.Format]

/-- The function `copyFile(src, dst)`. -/
def copyFile (limit : Option Nat) (src dst : Path) (fs : FS) : Option Error × FS :=
  match os.Open fs src with
  | .error e => (some e, fs)
  | .ok sourceFile =>
    match os.Create fs dst with
    | .error e => (some e, fs)
    | .ok (destFile, fs1) => ioCopy limit destFile sourceFile fs1

/-- The function `swapConfig(newConfigPath)`.  `now` is what `time.Now()` returns; `limit1` and
`limit2` are the device limits met by the first and the second copy. -/
def swapConfig (home : Path) (now : Time) (limit1 limit2 : Option Nat) (newConfigPath : Path)
    (w : World) : Option Error × World :=
  match os.MkdirAll w.fs (backupDir home) with
  | (some err, fs1) => (some (.wrap "failed to create backup directory" err), ⟨fs1, w.stdout⟩)
  | (none, fs1) =>
    match copyFile limit1 (kubeConfigPath home) (backupPath home now) fs1 with
    | (some err, fs2) => (some (.wrap "failed to backup current config" err), ⟨fs2, w.stdout⟩)
    | (none, fs2) =>
      match copyFile limit2 newConfigPath (kubeConfigPath home) fs2 with
      | (some err, fs3) => (some (.wrap "failed to set new config" err), ⟨fs3, w.stdout⟩)
      | (none, fs3) =>
        (none, ⟨fs3, w.stdout ++
          ["Successfully swapped to new config: " ++ pathString newConfigPath,
           "Old config backed up to: " ++ pathString (backupPath home now)]⟩)

/-- Model of `strings.HasPrefix(s, pre)`. -/
def hasPrefix (s pre : String) : Bool := pre.data.isPrefixOf s.data

/-- The loop of `listConfigs`: the lines it prints for the entries `files`. -/
def printBackups : List String → List String
  | [] => []
  | file :: rest =>
    if hasPrefix file "config_backup_" then file :: printBackups rest else printBackups rest

/-- The function `listConfigs()`. -/
def listConfigs (home : Path) (w : World) : Option Error × World :=
  match os.ReadDir w.fs (backupDir home) with
  | .error err => (some (.wrap "failed to read backup directory" err), w)
  | .ok files =>
    (none, ⟨w.fs, (w.stdout ++ ["Available kubectl config backups:"]) ++ printBackups files⟩)

/-- The `Run` closure of `swapCmd`, with the exit status of the process. -/
def swapCmdRun (home : Path) (now : Time) (limit1 limit2 : Option Nat) (newConfigPath : Path)
    (w : World) : Nat × World :=
  match swapConfig home now limit1 limit2 newConfigPath w with
  | (some err, w1) => (1, ⟨w1.fs, w1.stdout ++ ["Error swapping config: " ++ err.message]⟩)
  | (none, w1) => (0, w1)

/-- The `Run` closure of `listCmd`, with the exit status of the process. -/
def listCmdRun (home : Path) (w : World) : Nat × World :=
  match listConfigs home w with
  | (some err, w1) => (1, ⟨w1.fs, w1.stdout ++ ["Error listing configs: " ++ err.message]⟩)
  | (none, w1) => (0, w1)

/-! ## Predicates on file systems used in the statements -/

/-- Every directory of `fs` is the same directory in `fs1`. -/
def DirsKept (fs fs1 : FS) : Prop :=
  ∀ q perm, lookup fs q = some (.dir perm) → lookup fs1 q = some (.dir perm)

/-- The bytes of the regular file at `p`, when it exists and the caller may read it. -/
def readFile (fs : FS) (p : Path) : Option Bytes :=
  match stat fs p with
  | .ok (.file perm data) => if perm.r then some data else none
  | _ => none

/-- The caller may open the regular file at `p` for writing. -/
def writableFile (fs : FS) (p : Path) : Bool :=
  match stat fs p with
  | .ok (.file perm _) => perm.r && perm.w
  | _ => false

/-- The backup directory is there or can be made: it is a directory the caller may
search, or it is absent and the caller may write to `<home>/.kube`. -/
def backupDirUsable (home : Path) (fs : FS) : Bool :=
  match lookup fs (backupDir home) with
  | some (.dir perm) => perm.x
  | some (.file _ _) => false
  | none =>
    match lookup fs (home ++ [".kube"]) with
    | some (.dir perm) => perm.w
    | _ => false

/-- The backup file can be written: it is a file the caller may overwrite, or it is
absent and the caller may write to the backup directory (always so for a
directory the program makes itself). -/
def backupSlotUsable (home : Path) (now : Time) (fs : FS) : Bool :=
  match lookup fs (backupPath home now) with
  | some (.file perm _) => perm.r && perm.w
  | some (.dir _) => false
  | none =>
    match lookup fs (backupDir home) with
    | some (.dir perm) => perm.w
    | some (.file _ _) => false
    | none => true

/-- A reading a wall clock can show: a year of four digits, a month, a day of the
month, and a time of day. -/
abbrev validClock (t : Time) : Prop :=
  t.year < 10000 ∧ 1 ≤ t.month ∧ t.month ≤ 12 ∧ 1 ≤ t.day ∧ t.day ≤ 31 ∧
    t.hour < 24 ∧ t.minute < 60 ∧ t.second < 60

/-- The decimal digit of `n` that counts the multiples of `unit` (1, 10, 100, 1000). -/
def decimalDigit (n unit : Nat) : Char := Nat.digitChar (n / unit % 10)

/-- Spec form of the timestamp, to be compared with `Time.Format`: the text
`YYYYMMDD_HHMMSS`, written digit by digit. -/
def stampText (t : Time) : String :=
  ⟨[decimalDigit t.year 1000, decimalDigit t.year 100, decimalDigit t.year 10,
    decimalDigit t.year 1,
    decimalDigit t.month 10, decimalDigit t.month 1,
    decimalDigit t.day 10, decimalDigit t.day 1,
    '_',
    decimalDigit t.hour 10, decimalDigit t.hour 1,
    decimalDigit t.minute 10, decimalDigit t.minute 1,
    decimalDigit t.second 10, decimalDigit t.second 1]⟩

/-- Two clock readings in the same second. -/
abbrev sameSecond (t1 t2 : Time) : Prop :=
  t1.year = t2.year ∧ t1.month = t2.month ∧ t1.day = t2.day ∧
    t1.hour = t2.hour ∧ t1.minute = t2.minute ∧ t1.second = t2.second

/-- The device accepts all of `data`. -/
def noFault (limit : Option Nat) (data : Bytes) : Bool :=
  match limit with
  | none => true
  | some k => decide (data.length ≤ k)

/-! ## A sample file system -/

def homeU : Path := ["home", "u"]

def sampleTime : Time := ⟨2024, 3, 5, 7, 8, 9, 123456789⟩

/-- Directories `/`, `/home`, `/home/u`, `/home/u/.kube`, `/tmp`; the active config
holds "A", `/tmp/new` holds "B", `/tmp/other` holds "C". -/
def sampleFS : FS :=
  [([], .dir dirPerm), (["home"], .dir dirPerm), (["home", "u"], .dir dirPerm),
   (["home", "u", ".kube"], .dir dirPerm),
   (["home", "u", ".kube", "config"], .file filePerm [65]),
   (["tmp"], .dir dirPerm),
   (["tmp", "new"], .file filePerm [66]),
   (["tmp", "other"], .file filePerm [67])]

def sampleWorld : World := ⟨sampleFS, []⟩

/-- The clock of `sampleTime`, read later in the same second. -/
def sampleTimeLater : Time := ⟨2024, 3, 5, 7, 8, 9, 987654321⟩

/-- The file name of a backup made at `sampleTime`. -/
def sampleBackupName : String := "config_backup_20240305_070809"

/-- Variant of `sampleFS` where the active config may be read but not written. -/
def readOnlyFS : FS :=
  [([], .dir dirPerm), (["home"], .dir dirPerm), (["home", "u"], .dir dirPerm),
   (["home", "u", ".kube"], .dir dirPerm),
   (["home", "u", ".kube", "config"], .file ⟨true, false, false⟩ [65]),
   (["tmp"], .dir dirPerm),
   (["tmp", "new"], .file filePerm [66])]

/-- Variant of `sampleFS` with a backup directory that holds a backup "Z" under the name a
backup made at `sampleTime` gets. -/
def collisionFS : FS :=
  [([], .dir dirPerm), (["home"], .dir dirPerm), (["home", "u"], .dir dirPerm),
   (["home", "u", ".kube"], .dir dirPerm),
   (["home", "u", ".kube", "config"], .file filePerm [65]),
   (["home", "u", ".kube", "kubeswap_backups"], .dir dirPerm),
   (["home", "u", ".kube", "kubeswap_backups", sampleBackupName], .file filePerm [90]),
   (["tmp"], .dir dirPerm),
   (["tmp", "new"], .file filePerm [66])]

/-- Variant of `sampleFS` where the path of the backup directory is taken by a regular file. -/
def blockedFS : FS :=
  [([], .dir dirPerm), (["home"], .dir dirPerm), (["home", "u"], .dir dirPerm),
   (["home", "u", ".kube"], .dir dirPerm),
   (["home", "u", ".kube", "config"], .file filePerm [65]),
   (["home", "u", ".kube", "kubeswap_backups"], .file filePerm [1, 2, 3]),
   (["tmp"], .dir dirPerm),
   (["tmp", "new"], .file filePerm [66])]

/-- A home directory with `.kube` but neither active config nor backup directory. -/
def noConfigFS : FS :=
  [([], .dir dirPerm), (["home"], .dir dirPerm), (["home", "u"], .dir dirPerm),
   (["home", "u", ".kube"], .dir dirPerm),
   (["tmp"], .dir dirPerm),
   (["tmp", "new"], .file filePerm [66])]

/-- A home directory without `.kube`. -/
def bareFS : FS :=
  [([], .dir dirPerm), (["home"], .dir dirPerm), (["home", "u"], .dir dirPerm),
   (["tmp"], .dir dirPerm),
   (["tmp", "new"], .file filePerm [66])]

/-- Variant of `sampleFS` with an empty backup directory. -/
def emptyBackupFS : FS :=
  [([], .dir dirPerm), (["home"], .dir dirPerm), (["home", "u"], .dir dirPerm),
   (["home", "u", ".kube"], .dir dirPerm),
   (["home", "u", ".kube", "config"], .file filePerm [65]),
   (["home", "u", ".kube", "kubeswap_backups"], .dir dirPerm)]

/-- A backup directory with two backups, a file `notes.txt`, a subdirectory whose
name has the prefix and a file whose name has the prefix only further in. -/
def listingFS : FS :=
  [([], .dir dirPerm), (["home"], .dir dirPerm), (["home", "u"], .dir dirPerm),
   (["home", "u", ".kube"], .dir dirPerm),
   (["home", "u", ".kube", "config"], .file filePerm [65]),
   (["home", "u", ".kube", "kubeswap_backups"], .dir dirPerm),
   (["home", "u", ".kube", "kubeswap_backups", "notes.txt"], .file filePerm [1]),
   (["home", "u", ".kube", "kubeswap_backups", "config_backup_20240305_070809"], .file filePerm [65]),
   (["home", "u", ".kube", "kubeswap_backups", "config_backup_20230101_000000"], .file filePerm [66]),
   (["home", "u", ".kube", "kubeswap_backups", "config_backup_dir"], .dir dirPerm),
   (["home", "u", ".kube", "kubeswap_backups", "old_config_backup_1"], .file filePerm [67])]

end Kubeswap

namespace Kubeswap

/-! ## Lookup and store -/

theorem lookup_store (fs : FS) (p : Path) (n : Node) (q : Path) :
    lookup (store fs p n) q = if p = q then some n else lookup fs q := by
  induction fs with
  | nil => simp [store, lookup]
  | cons hd tl ih =>
    obtain ⟨k, m⟩ := hd
    by_cases hk : k = p
    · subst hk
      by_cases hq : k = q <;> simp [store, lookup, hq]
    · by_cases hq : k = q
      · subst hq
        have hpk : ¬ p = k := fun h => hk h.symm
        simp [store, lookup, hk, hpk]
      · simp [store, lookup, hk, hq, ih]

theorem lookup_store_self (fs : FS) (p : Path) (n : Node) : lookup (store fs p n) p = some n := by
  simp [lookup_store]

theorem lookup_store_ne (fs : FS) (p : Path) (n : Node) (q : Path) (h : p ≠ q) :
    lookup (store fs p n) q = lookup fs q := by
  simp [lookup_store, h]

/-! ## Path resolution -/

theorem DirsKept.refl (fs : FS) : DirsKept fs fs := fun _ _ h => h

theorem DirsKept.trans {a b c : FS} (h1 : DirsKept a b) (h2 : DirsKept b c) : DirsKept a c :=
  fun q perm h => h2 q perm (h1 q perm h)

theorem walk_mono {fs fs1 : FS} (h : DirsKept fs fs1) (cur : Path) (rest : List String)
    (hw : walk fs cur rest = .ok ()) : walk fs1 cur rest = .ok () := by
  induction rest generalizing cur with
  | nil => simp [walk]
  | cons name rest ih =>
    unfold walk at hw ⊢
    cases hl : lookup fs cur with
    | none => simp [hl] at hw
    | some n =>
      cases n with
      | file perm data => simp [hl] at hw
      | dir perm =>
        rw [hl] at hw
        rw [h cur perm hl]
        cases hx : perm.x with
        | false => simp [hx] at hw
        | true =>
          simp only [hx, if_true] at hw ⊢
          exact ih _ hw

theorem walk_snoc (fs : FS) (cur : Path) (rest : List String) (a : String) :
    walk fs cur (rest ++ [a]) = .ok () ↔
      walk fs cur rest = .ok () ∧ ∃ perm, lookup fs (cur ++ rest) = some (.dir perm) ∧ perm.x = true := by
  induction rest generalizing cur with
  | nil =>
    simp only [List.nil_append, List.append_nil, walk, true_and]
    cases hl : lookup fs cur with
    | none => simp
    | some n =>
      cases n with
      | file perm data => simp
      | dir perm => cases hx : perm.x <;> simp [hx]
  | cons name rest ih =>
    simp only [List.cons_append, walk]
    cases hl : lookup fs cur with
    | none => simp
    | some n =>
      cases n with
      | file perm data => simp
      | dir perm =>
        cases hx : perm.x with
        | false => simp [hx]
        | true =>
          have h := ih (cur ++ [name])
          simp only [List.append_assoc, List.singleton_append] at h
          simpa [hx] using h

theorem stat_ok_iff (fs : FS) (p : Path) (n : Node) :
    stat fs p = .ok n ↔ walk fs [] p = .ok () ∧ lookup fs p = some n := by
  unfold stat
  cases hw : walk fs [] p with
  | error e => simp
  | ok u =>
    cases hl : lookup fs p with
    | none => simp
    | some m => simp

theorem stat_error_of_lookup_none (fs : FS) (p : Path) (h : lookup fs p = none) :
    ∃ e, stat fs p = .error e := by
  unfold stat
  cases hw : walk fs [] p with
  | error e => exact ⟨e, rfl⟩
  | ok u => simp [h]

/-! ## What each operation may change -/

theorem Mkdir_ok {fs fs1 : FS} {p : Path} (h : os.Mkdir fs p = .ok fs1) :
    lookup fs p = none ∧ fs1 = store fs p (.dir dirPerm) := by
  unfold os.Mkdir at h
  cases hw : walk fs [] p with
  | error e => simp [hw] at h
  | ok u =>
    cases hl : lookup fs p with
    | some n => simp [hw, hl] at h
    | none =>
      simp only [hw, hl] at h
      split at h
      · split at h
        · simp only [Except.ok.injEq] at h
          exact ⟨rfl, h.symm⟩
        · simp at h
      · simp at h

theorem mkdirLast_cases (fs : FS) (p : Path) :
    (os.mkdirLast fs p).2 = fs ∨
      (lookup fs p = none ∧ os.mkdirLast fs p = (none, store fs p (.dir dirPerm))) := by
  unfold os.mkdirLast
  cases hm : os.Mkdir fs p with
  | ok fs1 =>
    obtain ⟨h1, h2⟩ := Mkdir_ok hm
    right
    simp [h1, h2]
  | error e =>
    left
    simp only
    split <;> rfl

theorem MkdirAllRev_frame (fs : FS) (rp : List String) (q : Path) :
    lookup (os.MkdirAllRev fs rp).2 q = lookup fs q ∨
      (lookup fs q = none ∧ lookup (os.MkdirAllRev fs rp).2 q = some (.dir dirPerm) ∧
        q <+: rp.reverse) := by
  induction rp with
  | nil =>
    unfold os.MkdirAllRev
    split
    · left; rfl
    · left; rfl
    · rcases mkdirLast_cases fs [] with h | ⟨h1, h2⟩
      · left; rw [h]
      · rw [h2]
        by_cases hq : ([] : Path) = q
        · subst hq
          right
          exact ⟨h1, by simp [lookup_store], by simp⟩
        · left
          simp [lookup_store, hq]
  | cons name parent ih =>
    unfold os.MkdirAllRev
    split
    · left; rfl
    · left; rfl
    · have hpre : parent.reverse <+: (name :: parent).reverse := by
        simp
      cases hrec : os.MkdirAllRev fs parent with
      | mk e fs1 =>
        rw [hrec] at ih
        simp only at ih
        cases e with
        | some err =>
          simp only
          rcases ih with h | ⟨h1, h2, h3⟩
          · left; exact h
          · right; exact ⟨h1, h2, h3.trans hpre⟩
        | none =>
          simp only
          rcases mkdirLast_cases fs1 (name :: parent).reverse with h | ⟨h1, h2⟩
          · rw [h]
            rcases ih with h | ⟨h1, h2, h3⟩
            · left; exact h
            · right; exact ⟨h1, h2, h3.trans hpre⟩
          · rw [h2]
            by_cases hq : (name :: parent).reverse = q
            · subst hq
              right
              refine ⟨?_, by simp [lookup_store], List.prefix_refl _⟩
              rcases ih with h | ⟨h, _, _⟩
              · rw [← h]; exact h1
              · exact h
            · simp only [lookup_store, hq, if_false]
              rcases ih with h | ⟨h1, h2, h3⟩
              · left; exact h
              · right; exact ⟨h1, h2, h3.trans hpre⟩

theorem MkdirAll_frame (fs : FS) (p q : Path) :
    lookup (os.MkdirAll fs p).2 q = lookup fs q ∨
      (lookup fs q = none ∧ lookup (os.MkdirAll fs p).2 q = some (.dir dirPerm) ∧ q <+: p) := by
  have h := MkdirAllRev_frame fs p.reverse q
  rw [List.reverse_reverse] at h
  exact h

theorem Create_ok {fs fs1 : FS} {p h : Path} (hc : os.Create fs p = .ok (h, fs1)) :
    h = p ∧ walk fs [] p = .ok () ∧ ∃ perm, fs1 = store fs p (.file perm []) ∧
      ((lookup fs p = none ∧ perm = filePerm) ∨ ∃ old, lookup fs p = some (.file perm old)) := by
  unfold os.Create at hc
  cases hw : walk fs [] p with
  | error e => simp [hw] at hc
  | ok u =>
    simp only [hw] at hc
    cases hl : lookup fs p with
    | some n =>
      cases n with
      | dir perm => simp [hl] at hc
      | file perm old =>
        simp only [hl] at hc
        split at hc
        · simp only [Except.ok.injEq, Prod.mk.injEq] at hc
          exact ⟨hc.1.symm, rfl, perm, hc.2.symm, Or.inr ⟨old, rfl⟩⟩
        · simp at hc
    | none =>
      simp only [hl] at hc
      split at hc
      · split at hc
        · simp only [Except.ok.injEq, Prod.mk.injEq] at hc
          exact ⟨hc.1.symm, rfl, filePerm, hc.2.symm, Or.inl ⟨rfl, rfl⟩⟩
        · simp at hc
      · simp at hc

theorem ioCopy_cases (limit : Option Nat) (dst src : Path) (fs : FS) :
    (ioCopy limit dst src fs).2 = fs ∨
      ∃ perm old data, lookup fs dst = some (.file perm old) ∧
        (ioCopy limit dst src fs).2 = store fs dst (.file perm data) := by
  unfold ioCopy
  split
  · split
    · next perm old hd =>
      right
      split
      · split
        · exact ⟨perm, old, _, hd, rfl⟩
        · exact ⟨perm, old, _, hd, rfl⟩
      · exact ⟨perm, old, _, hd, rfl⟩
    · left; rfl
  · left; rfl
  · left; rfl

/-- What `copyFile` leaves at its destination: the node that was there, or a file
where there was a file or nothing. -/
theorem copyFile_dst (limit : Option Nat) (src dst : Path) (fs : FS) :
    lookup (copyFile limit src dst fs).2 dst = lookup fs dst ∨
      ∃ perm data, lookup (copyFile limit src dst fs).2 dst = some (.file perm data) ∧
        (lookup fs dst = none ∨ ∃ old, lookup fs dst = some (.file perm old)) := by
  unfold copyFile
  cases ho : os.Open fs src with
  | error e => left; rfl
  | ok sourceFile =>
    cases hc : os.Create fs dst with
    | error e => left; rfl
    | ok r =>
      obtain ⟨destFile, fs1⟩ := r
      obtain ⟨hd, _, perm, hfs1, hold⟩ := Create_ok hc
      subst hd
      right
      simp only
      have hold1 : lookup fs destFile = none ∨ ∃ old, lookup fs destFile = some (.file perm old) := by
        rcases hold with ⟨h, _⟩ | h
        · exact Or.inl h
        · exact Or.inr h
      rcases ioCopy_cases limit destFile sourceFile fs1 with h | ⟨perm1, old, data, h1, h2⟩
      · rw [h, hfs1]
        exact ⟨perm, [], lookup_store_self _ _ _, hold1⟩
      · rw [h2]
        rw [hfs1, lookup_store_self] at h1
        simp only [Option.some.injEq, Node.file.injEq] at h1
        obtain ⟨hp, _⟩ := h1
        subst hp
        exact ⟨perm, data, lookup_store_self _ _ _, hold1⟩

/-- Frame of `copyFile`: it changes nothing but its destination. -/
theorem copyFile_frame (limit : Option Nat) (src dst : Path) (fs : FS) (q : Path) (hq : q ≠ dst) :
    lookup (copyFile limit src dst fs).2 q = lookup fs q := by
  unfold copyFile
  cases ho : os.Open fs src with
  | error e => rfl
  | ok sourceFile =>
    cases hc : os.Create fs dst with
    | error e => rfl
    | ok r =>
      obtain ⟨destFile, fs1⟩ := r
      obtain ⟨hd, _, perm, hfs1, _⟩ := Create_ok hc
      subst hd
      simp only
      have hne : ¬ destFile = q := fun h => hq h.symm
      rcases ioCopy_cases limit destFile sourceFile fs1 with h | ⟨perm1, old, data, _, h2⟩
      · rw [h, hfs1, lookup_store_ne _ _ _ _ hne]
      · rw [h2, lookup_store_ne _ _ _ _ hne, hfs1, lookup_store_ne _ _ _ _ hne]

/-! ## The three paths of the program -/

theorem kubeConfigPath_ne_backupPath (home : Path) (now : Time) :
    kubeConfigPath home ≠ backupPath home now := by
  intro h
  have := congrArg List.length h
  simp [kubeConfigPath, backupPath, backupDir] at this

theorem backupDir_ne_backupPath (home : Path) (now : Time) :
    backupDir home ≠ backupPath home now := by
  intro h
  have := congrArg List.length h
  simp [backupPath, backupDir] at this

theorem kubeConfigPath_ne_backupDir (home : Path) : kubeConfigPath home ≠ backupDir home := by
  intro h
  simp [kubeConfigPath, backupDir] at h

theorem not_kubeConfigPath_le_backupDir (home : Path) : ¬ kubeConfigPath home <+: backupDir home := by
  intro h
  have hlen : (kubeConfigPath home).length = (backupDir home).length := by
    simp [kubeConfigPath, backupDir]
  exact kubeConfigPath_ne_backupDir home (List.IsPrefix.eq_of_length h hlen)

theorem not_child_le_backupDir (home : Path) (name : String) :
    ¬ (backupDir home ++ [name]) <+: backupDir home := by
  intro h
  have := h.length_le
  simp at this

theorem not_backupPath_le_backupDir (home : Path) (now : Time) :
    ¬ backupPath home now <+: backupDir home :=
  not_child_le_backupDir home _

/-! ## Successful runs of the operations -/

theorem readFile_eq_some {fs : FS} {p : Path} {data : Bytes} :
    readFile fs p = some data ↔ ∃ perm, stat fs p = .ok (.file perm data) ∧ perm.r = true := by
  unfold readFile
  cases hs : stat fs p with
  | error e => simp
  | ok n =>
    cases n with
    | dir perm => simp
    | file perm d =>
      constructor
      · intro h
        by_cases hr : perm.r = true
        · simp only [hr, if_true, Option.some.injEq] at h
          subst h
          exact ⟨perm, rfl, hr⟩
        · simp [hr] at h
      · rintro ⟨perm1, h1, h2⟩
        simp only [Except.ok.injEq, Node.file.injEq] at h1
        obtain ⟨hp, hd⟩ := h1
        subst hp hd
        simp [h2]

theorem noFault_ioCopy {limit : Option Nat} {data : Bytes} (hf : noFault limit data = true)
    {fs : FS} {dst src : Path} {ps pd : Perm} {old : Bytes}
    (hs : lookup fs src = some (.file ps data)) (hd : lookup fs dst = some (.file pd old)) :
    ioCopy limit dst src fs = (none, store fs dst (.file pd (writeAt old data))) := by
  unfold ioCopy
  simp only [hs, hd]
  cases limit with
  | none => rfl
  | some k =>
    simp only [noFault, decide_eq_true_eq] at hf
    simp [Nat.not_lt.mpr hf]

theorem writeAt_nil (data : Bytes) : writeAt [] data = data := by
  simp [writeAt]

/-- A copy between two different paths that meets no obstacle. -/
theorem copyFile_ok {fs : FS} {src dst : Path} {ps pd : Perm} {data : Bytes} {limit : Option Nat}
    (hstat : stat fs src = .ok (.file ps data)) (hr : ps.r = true) (hne : src ≠ dst)
    (hw : walk fs [] dst = .ok ())
    (hslot : (∃ old, lookup fs dst = some (.file pd old) ∧ pd.r = true ∧ pd.w = true) ∨
      (lookup fs dst = none ∧ pd = filePerm ∧
        ∃ perm, lookup fs dst.dropLast = some (.dir perm) ∧ perm.w = true))
    (hf : noFault limit data = true) :
    copyFile limit src dst fs = (none, store (store fs dst (.file pd [])) dst (.file pd data)) := by
  have hc : os.Create fs dst = .ok (dst, store fs dst (.file pd [])) := by
    unfold os.Create
    rcases hslot with ⟨old, h1, h2, h3⟩ | ⟨h1, h2, perm, h3, h4⟩
    · simp [hw, h1, h2, h3]
    · simp [hw, h1, h2, h3, h4]
  have ho : os.Open fs src = .ok src := by
    unfold os.Open
    simp [hstat, hr]
  have hl := ((stat_ok_iff _ _ _).mp hstat).2
  unfold copyFile
  simp only [ho, hc]
  have hs1 : lookup (store fs dst (.file pd [])) src = some (.file ps data) := by
    rw [lookup_store_ne _ _ _ _ (fun h => hne h.symm)]
    exact hl
  have hd1 : lookup (store fs dst (.file pd [])) dst = some (.file pd []) := lookup_store_self _ _ _
  rw [noFault_ioCopy hf hs1 hd1, writeAt_nil]

/-- A copy of a file onto itself: the file is truncated before it is read. -/
theorem copyFile_self {fs : FS} {p : Path} {perm : Perm} {data : Bytes} (limit : Option Nat)
    (hstat : stat fs p = .ok (.file perm data)) (hr : perm.r = true) (hw : perm.w = true) :
    copyFile limit p p fs = (none, store (store fs p (.file perm [])) p (.file perm [])) := by
  obtain ⟨hwalk, hl⟩ := (stat_ok_iff _ _ _).mp hstat
  have hc : os.Create fs p = .ok (p, store fs p (.file perm [])) := by
    unfold os.Create
    simp [hwalk, hl, hr, hw]
  have ho : os.Open fs p = .ok p := by
    unfold os.Open
    simp [hstat, hr]
  unfold copyFile
  simp only [ho, hc]
  have hs1 : lookup (store fs p (.file perm [])) p = some (.file perm []) := lookup_store_self _ _ _
  have hf : noFault limit [] = true := by
    cases limit <;> simp [noFault]
  rw [noFault_ioCopy hf hs1 hs1, writeAt_nil]

theorem MkdirAllRev_of_dir {fs : FS} {rp : List String} (perm : Perm)
    (h : stat fs rp.reverse = .ok (.dir perm)) : os.MkdirAllRev fs rp = (none, fs) := by
  cases rp with
  | nil =>
    simp only [List.reverse_nil] at h
    simp [os.MkdirAllRev, h]
  | cons name parent =>
    unfold os.MkdirAllRev
    simp only [h]

theorem MkdirAll_of_dir {fs : FS} {p : Path} {perm : Perm}
    (h : stat fs p = .ok (.dir perm)) : os.MkdirAll fs p = (none, fs) := by
  unfold os.MkdirAll
  apply MkdirAllRev_of_dir perm
  rw [List.reverse_reverse]
  exact h

/-- With the parent in place, `MkdirAll` makes one directory. -/
theorem MkdirAll_of_parent {fs : FS} {par : Path} {name : String} {perm : Perm}
    (hpar : stat fs par = .ok (.dir perm)) (hx : perm.x = true) (hw : perm.w = true)
    (hnone : lookup fs (par ++ [name]) = none) :
    os.MkdirAll fs (par ++ [name]) = (none, store fs (par ++ [name]) (.dir dirPerm)) := by
  obtain ⟨e, he⟩ := stat_error_of_lookup_none fs _ hnone
  obtain ⟨hwalk, hl⟩ := (stat_ok_iff _ _ _).mp hpar
  have hrec : os.MkdirAllRev fs par.reverse = (none, fs) := by
    apply MkdirAllRev_of_dir perm
    rw [List.reverse_reverse]
    exact hpar
  have hwalk1 : walk fs [] (par ++ [name]) = .ok () := by
    rw [walk_snoc]
    exact ⟨hwalk, perm, by simpa using hl, hx⟩
  have hmk : os.Mkdir fs (par ++ [name]) = .ok (store fs (par ++ [name]) (.dir dirPerm)) := by
    unfold os.Mkdir
    simp [hwalk1, hnone, hl, hw]
  unfold os.MkdirAll
  simp only [List.reverse_append, List.reverse_cons, List.reverse_nil, List.nil_append,
    List.singleton_append]
  unfold os.MkdirAllRev
  simp only [List.reverse_cons, List.reverse_reverse, he, hrec]
  unfold os.mkdirLast
  simp [hmk]

theorem stat_mono {fs fs1 : FS} (h : DirsKept fs fs1) {p : Path} {n n1 : Node}
    (hs : stat fs p = .ok n) (hl : lookup fs1 p = some n1) : stat fs1 p = .ok n1 := by
  rw [stat_ok_iff] at hs ⊢
  exact ⟨walk_mono h _ _ hs.1, hl⟩

/-- From a readable active config: `<home>/.kube` is a directory the caller may search. -/
theorem kube_of_config {fs : FS} {home : Path} {n : Node}
    (hs : stat fs (kubeConfigPath home) = .ok n) :
    ∃ pk, stat fs (home ++ [".kube"]) = .ok (.dir pk) ∧ pk.x = true := by
  have hw := ((stat_ok_iff _ _ _).mp hs).1
  have he : kubeConfigPath home = (home ++ [".kube"]) ++ ["config"] := by simp [kubeConfigPath]
  rw [he, walk_snoc] at hw
  obtain ⟨hw1, pk, hl, hx⟩ := hw
  simp only [List.nil_append] at hl
  exact ⟨pk, (stat_ok_iff _ _ _).mpr ⟨hw1, hl⟩, hx⟩

theorem walk_backupDir {fs : FS} {home : Path} {pk : Perm}
    (hs : stat fs (home ++ [".kube"]) = .ok (.dir pk)) (hx : pk.x = true) :
    walk fs [] (backupDir home) = .ok () := by
  obtain ⟨hw, hl⟩ := (stat_ok_iff _ _ _).mp hs
  have he : backupDir home = (home ++ [".kube"]) ++ ["kubeswap_backups"] := by simp [backupDir]
  rw [he, walk_snoc]
  exact ⟨hw, pk, by simpa using hl, hx⟩

/-- The first step of a swap on a file system with a usable backup directory. -/
theorem mkdir_phase {fs : FS} {home : Path} {n : Node}
    (hcfg : stat fs (kubeConfigPath home) = .ok n)
    (hdir : backupDirUsable home fs = true) :
    ∃ fs1 pd, os.MkdirAll fs (backupDir home) = (none, fs1) ∧
      (∀ q, lookup fs1 q = if q = backupDir home then some (.dir pd) else lookup fs q) ∧
      (lookup fs (backupDir home) = some (.dir pd) ∨
        (lookup fs (backupDir home) = none ∧ pd = dirPerm)) ∧
      pd.x = true ∧ walk fs1 [] (backupDir home) = .ok () ∧ DirsKept fs fs1 := by
  obtain ⟨pk, hk, hkx⟩ := kube_of_config hcfg
  have hwalk := walk_backupDir hk hkx
  unfold backupDirUsable at hdir
  cases hl : lookup fs (backupDir home) with
  | some nd =>
    cases nd with
    | file perm data => simp [hl] at hdir
    | dir pd =>
      simp only [hl] at hdir
      have hst : stat fs (backupDir home) = .ok (.dir pd) := (stat_ok_iff _ _ _).mpr ⟨hwalk, hl⟩
      refine ⟨fs, pd, MkdirAll_of_dir hst, ?_, Or.inl rfl, hdir, hwalk, DirsKept.refl fs⟩
      intro q
      by_cases hq : q = backupDir home
      · simp [hq, hl]
      · simp [hq]
  | none =>
    have hkl := ((stat_ok_iff _ _ _).mp hk).2
    simp only [hl, hkl] at hdir
    have he : backupDir home = (home ++ [".kube"]) ++ ["kubeswap_backups"] := by simp [backupDir]
    have hmk : os.MkdirAll fs (backupDir home) =
        (none, store fs (backupDir home) (.dir dirPerm)) := by
      rw [he]
      apply MkdirAll_of_parent hk hkx hdir
      rw [← he]; exact hl
    have hkept : DirsKept fs (store fs (backupDir home) (.dir dirPerm)) := by
      intro q perm hq
      have hne : backupDir home ≠ q := by
        intro h; rw [← h, hl] at hq; simp at hq
      rw [lookup_store_ne _ _ _ _ hne]; exact hq
    refine ⟨_, dirPerm, hmk, ?_, Or.inr ⟨rfl, rfl⟩, rfl, walk_mono hkept _ _ hwalk, hkept⟩
    intro q
    by_cases hq : q = backupDir home
    · simp [hq, lookup_store]
    · have hne : ¬ backupDir home = q := fun h => hq h.symm
      simp [hq, lookup_store, hne]

/-- The first two steps of a swap on a file system with a readable active
config, a usable backup directory and a usable backup file. -/
theorem backup_phase {fs : FS} {home : Path} (now : Time) {A : Bytes} {limit1 : Option Nat}
    (hcfg : readFile fs (kubeConfigPath home) = some A)
    (hdir : backupDirUsable home fs = true)
    (hslot : backupSlotUsable home now fs = true)
    (hf : noFault limit1 A = true) :
    ∃ fs1 fs2 pd pb, os.MkdirAll fs (backupDir home) = (none, fs1) ∧
      copyFile limit1 (kubeConfigPath home) (backupPath home now) fs1 = (none, fs2) ∧
      (∀ q, lookup fs2 q = if q = backupPath home now then some (.file pb A)
        else if q = backupDir home then some (.dir pd) else lookup fs q) ∧
      (lookup fs (backupDir home) = some (.dir pd) ∨
        (lookup fs (backupDir home) = none ∧ pd = dirPerm)) ∧
      ((lookup fs (backupPath home now) = none ∧ pb = filePerm) ∨
        ∃ old, lookup fs (backupPath home now) = some (.file pb old) ∧ pb.r = true ∧ pb.w = true) ∧
      DirsKept fs fs2 := by
  obtain ⟨pc, hstat, hr⟩ := readFile_eq_some.mp hcfg
  obtain ⟨fs1, pd, hmk, hlk1, hpd, hpdx, hwalk1, hkept1⟩ := mkdir_phase hstat hdir
  have hcl := ((stat_ok_iff _ _ _).mp hstat).2
  have hstat1 : stat fs1 (kubeConfigPath home) = .ok (.file pc A) := by
    apply stat_mono hkept1 hstat
    rw [hlk1]; simp [kubeConfigPath_ne_backupDir, hcl]
  have hbd1 : lookup fs1 (backupDir home) = some (.dir pd) := by rw [hlk1]; simp
  have hbp1 : lookup fs1 (backupPath home now) = lookup fs (backupPath home now) := by
    rw [hlk1]; simp [(backupDir_ne_backupPath home now).symm]
  have hwalkbp : walk fs1 [] (backupPath home now) = .ok () := by
    unfold backupPath
    rw [walk_snoc]
    exact ⟨hwalk1, pd, by simpa using hbd1, hpdx⟩
  have hdrop : (backupPath home now).dropLast = backupDir home := by
    simp [backupPath]
  have key : ∃ pb, ((∃ old, lookup fs1 (backupPath home now) = some (.file pb old) ∧
        pb.r = true ∧ pb.w = true) ∨
      (lookup fs1 (backupPath home now) = none ∧ pb = filePerm ∧
        ∃ perm, lookup fs1 (backupPath home now).dropLast = some (.dir perm) ∧ perm.w = true)) ∧
      ((lookup fs (backupPath home now) = none ∧ pb = filePerm) ∨
        ∃ old, lookup fs (backupPath home now) = some (.file pb old) ∧
          pb.r = true ∧ pb.w = true) := by
    unfold backupSlotUsable at hslot
    cases hl : lookup fs (backupPath home now) with
    | some nd =>
      cases nd with
      | dir perm => simp [hl] at hslot
      | file pb old =>
        simp only [hl, Bool.and_eq_true] at hslot
        exact ⟨pb, Or.inl ⟨old, by rw [hbp1, hl], hslot.1, hslot.2⟩,
          Or.inr ⟨old, rfl, hslot.1, hslot.2⟩⟩
    | none =>
      refine ⟨filePerm, Or.inr ⟨by rw [hbp1, hl], rfl, pd, by rw [hdrop]; exact hbd1, ?_⟩,
        Or.inl ⟨rfl, rfl⟩⟩
      simp only [hl] at hslot
      rcases hpd with h | ⟨h, hp⟩
      · simpa [h] using hslot
      · rw [hp]; rfl
  obtain ⟨pb, hslot1, hslot0⟩ := key
  have hcopy := copyFile_ok hstat1 hr (kubeConfigPath_ne_backupPath home now) hwalkbp hslot1 hf
  have hlk2 : ∀ q, lookup (store (store fs1 (backupPath home now) (.file pb []))
      (backupPath home now) (.file pb A)) q =
      if q = backupPath home now then some (.file pb A)
        else if q = backupDir home then some (.dir pd) else lookup fs q := by
    intro q
    by_cases hq : q = backupPath home now
    · simp [hq, lookup_store]
    · have hne : ¬ backupPath home now = q := fun h => hq h.symm
      simp only [lookup_store, hne, if_false, hq, hlk1]
  refine ⟨fs1, _, pd, pb, hmk, hcopy, hlk2, hpd, hslot0, ?_⟩
  intro q perm hq
  rw [hlk2]
  have hne : q ≠ backupPath home now := by
    intro h
    rw [h] at hq
    rcases hslot0 with ⟨h0, _⟩ | ⟨old, h0, _⟩ <;> simp [h0] at hq
  simp only [hne, if_false]
  by_cases hb : q = backupDir home
  · simp only [hb, if_true]
    rw [hb] at hq
    rcases hpd with h | ⟨h, _⟩
    · rw [h] at hq; exact hq
    · simp [h] at hq
  · simp [hb, hq]

theorem writableFile_eq_true {fs : FS} {p : Path} (h : writableFile fs p = true) :
    ∃ perm data, stat fs p = .ok (.file perm data) ∧ perm.r = true ∧ perm.w = true := by
  unfold writableFile at h
  cases hs : stat fs p with
  | error e => simp [hs] at h
  | ok n =>
    cases n with
    | dir perm => simp [hs] at h
    | file perm data =>
      simp only [hs, Bool.and_eq_true] at h
      exact ⟨perm, data, rfl, h.1, h.2⟩

/-- A whole swap that meets no obstacle, with the file system it leaves. -/
theorem swapConfig_ok {home : Path} {now : Time} {limit1 limit2 : Option Nat}
    {newConfigPath : Path} {w : World} {A B : Bytes}
    (hcfg : readFile w.fs (kubeConfigPath home) = some A)
    (hwr : writableFile w.fs (kubeConfigPath home) = true)
    (hnew : readFile w.fs newConfigPath = some B)
    (hdir : backupDirUsable home w.fs = true)
    (hslot : backupSlotUsable home now w.fs = true)
    (hne1 : newConfigPath ≠ kubeConfigPath home)
    (hne2 : newConfigPath ≠ backupPath home now)
    (hf1 : noFault limit1 A = true) (hf2 : noFault limit2 B = true) :
    ∃ fs3 pc pd pb,
      swapConfig home now limit1 limit2 newConfigPath w =
        (none, ⟨fs3, w.stdout ++
          ["Successfully swapped to new config: " ++ pathString newConfigPath,
           "Old config backed up to: " ++ pathString (backupPath home now)]⟩) ∧
      (∀ q, lookup fs3 q = if q = kubeConfigPath home then some (.file pc B)
        else if q = backupPath home now then some (.file pb A)
        else if q = backupDir home then some (.dir pd) else lookup w.fs q) ∧
      (pc.r = true ∧ pc.w = true ∧ pd.x = true ∧ pb.r = true ∧ pb.w = true) ∧
      DirsKept w.fs fs3 ∧ walk fs3 [] (kubeConfigPath home) = .ok () := by
  obtain ⟨fs1, fs2, pd, pb, hmk, hcopy1, hlk2, hpd, hpb, hkept2⟩ :=
    backup_phase now hcfg hdir hslot hf1
  obtain ⟨pc, A1, hstatc, hcr, hcw⟩ := writableFile_eq_true hwr
  obtain ⟨pc1, hstatc1, _⟩ := readFile_eq_some.mp hcfg
  rw [hstatc] at hstatc1
  simp only [Except.ok.injEq, Node.file.injEq] at hstatc1
  obtain ⟨_, hA⟩ := hstatc1
  subst hA
  obtain ⟨pn, hstatn, hnr⟩ := readFile_eq_some.mp hnew
  obtain ⟨hwalkc, hlc⟩ := (stat_ok_iff _ _ _).mp hstatc
  obtain ⟨_, hln⟩ := (stat_ok_iff _ _ _).mp hstatn
  have hnbd : newConfigPath ≠ backupDir home := by
    intro h
    rw [h] at hln
    rcases hpd with h1 | ⟨h1, _⟩ <;> simp [h1] at hln
  have hpdx : pd.x = true := by
    unfold backupDirUsable at hdir
    rcases hpd with h1 | ⟨_, h1⟩
    · simpa [h1] using hdir
    · rw [h1]; rfl
  have hpbrw : pb.r = true ∧ pb.w = true := by
    rcases hpb with ⟨_, h1⟩ | ⟨_, _, h1, h2⟩
    · rw [h1]; exact ⟨rfl, rfl⟩
    · exact ⟨h1, h2⟩
  have hstatn2 : stat fs2 newConfigPath = .ok (.file pn B) := by
    apply stat_mono hkept2 hstatn
    rw [hlk2]; simp [hne2, hnbd, hln]
  have hlc2 : lookup fs2 (kubeConfigPath home) = some (.file pc A1) := by
    rw [hlk2]
    simp [kubeConfigPath_ne_backupPath, kubeConfigPath_ne_backupDir, hlc]
  have hwalkc2 := walk_mono hkept2 _ _ hwalkc
  have hcopy2 := copyFile_ok hstatn2 hnr hne1 hwalkc2
    (Or.inl ⟨A1, hlc2, hcr, hcw⟩) hf2
  have hlk3 : ∀ q, lookup (store (store fs2 (kubeConfigPath home) (.file pc []))
      (kubeConfigPath home) (.file pc B)) q =
      if q = kubeConfigPath home then some (.file pc B)
        else if q = backupPath home now then some (.file pb A1)
        else if q = backupDir home then some (.dir pd) else lookup w.fs q := by
    intro q
    by_cases hq : q = kubeConfigPath home
    · simp [hq, lookup_store]
    · have hne : ¬ kubeConfigPath home = q := fun h => hq h.symm
      simp only [lookup_store, hne, if_false, hq, hlk2]
  have hkept3 : DirsKept fs2 (store (store fs2 (kubeConfigPath home) (.file pc []))
      (kubeConfigPath home) (.file pc B)) := by
    intro q perm hq
    have hne : kubeConfigPath home ≠ q := by
      intro h; rw [← h, hlc2] at hq; simp at hq
    rw [lookup_store_ne _ _ _ _ hne, lookup_store_ne _ _ _ _ hne]; exact hq
  refine ⟨_, pc, pd, pb, ?_, hlk3, ⟨hcr, hcw, hpdx, hpbrw.1, hpbrw.2⟩,
    hkept2.trans hkept3, walk_mono hkept3 _ _ hwalkc2⟩
  unfold swapConfig
  simp only [hmk, hcopy1, hcopy2]

/-- What a successful `copyFile` has done. -/
theorem copyFile_none {limit : Option Nat} {src dst : Path} {fs fs1 : FS}
    (h : copyFile limit src dst fs = (none, fs1)) :
    ∃ ps pd data, lookup (store fs dst (.file pd [])) src = some (.file ps data) ∧
      fs1 = store (store fs dst (.file pd [])) dst (.file pd data) ∧
      ((lookup fs dst = none ∧ pd = filePerm) ∨ ∃ old, lookup fs dst = some (.file pd old)) := by
  unfold copyFile at h
  cases ho : os.Open fs src with
  | error e => simp [ho] at h
  | ok sourceFile =>
    have hsrc : sourceFile = src := by
      unfold os.Open at ho
      split at ho
      · simp at ho
      · split at ho
        · simp only [Except.ok.injEq] at ho; exact ho.symm
        · simp at ho
      · split at ho
        · simp only [Except.ok.injEq] at ho; exact ho.symm
        · simp at ho
    subst hsrc
    cases hc : os.Create fs dst with
    | error e => simp [ho, hc] at h
    | ok r =>
      obtain ⟨destFile, fs0⟩ := r
      obtain ⟨hd, _, pd, hfs0, hold⟩ := Create_ok hc
      subst hd
      simp only [ho, hc] at h
      have hdl : lookup fs0 destFile = some (.file pd []) := by
        rw [hfs0]; exact lookup_store_self _ _ _
      unfold ioCopy at h
      cases hs : lookup fs0 sourceFile with
      | none => simp [hs] at h
      | some n =>
        cases n with
        | dir perm => simp [hs] at h
        | file ps data =>
          simp only [hs, hdl] at h
          refine ⟨ps, pd, data, by rw [← hfs0]; exact hs, ?_, hold⟩
          rw [← hfs0]
          cases limit with
          | none =>
            simp only [Prod.mk.injEq, true_and] at h
            rw [← h, writeAt_nil]
          | some k =>
            simp only at h
            split at h
            · simp at h
            · simp only [Prod.mk.injEq, true_and] at h
              rw [← h, writeAt_nil]

theorem child_ne_kubeConfigPath (home : Path) (name : String) :
    backupDir home ++ [name] ≠ kubeConfigPath home := by
  intro h
  have := congrArg List.length h
  simp [kubeConfigPath, backupDir] at this

/-- Frame of `MkdirAll` on the backup directory: it leaves every path that is not on the way
to it as it was. -/
theorem MkdirAll_off_path (fs : FS) (home q : Path) (hq : ¬ q <+: backupDir home) :
    lookup (os.MkdirAll fs (backupDir home)).2 q = lookup fs q := by
  rcases MkdirAll_frame fs (backupDir home) q with h | ⟨_, _, h⟩
  · exact h
  · exact absurd h hq

/-- Frame of `MkdirAll`: it leaves every node that exists as it was. -/
theorem MkdirAll_keeps (fs : FS) (p q : Path) (n : Node) (hq : lookup fs q = some n) :
    lookup (os.MkdirAll fs p).2 q = some n := by
  rcases MkdirAll_frame fs p q with h | ⟨h, _, _⟩
  · rw [h, hq]
  · rw [hq] at h; simp at h

/-- A successful swap went through its three steps. -/
theorem swapConfig_none {home : Path} {now : Time} {limit1 limit2 : Option Nat}
    {newConfigPath : Path} {w : World}
    (h : (swapConfig home now limit1 limit2 newConfigPath w).1 = none) :
    ∃ fs1 fs2 fs3, os.MkdirAll w.fs (backupDir home) = (none, fs1) ∧
      copyFile limit1 (kubeConfigPath home) (backupPath home now) fs1 = (none, fs2) ∧
      copyFile limit2 newConfigPath (kubeConfigPath home) fs2 = (none, fs3) ∧
      (swapConfig home now limit1 limit2 newConfigPath w).2.fs = fs3 := by
  unfold swapConfig at h
  cases hm : os.MkdirAll w.fs (backupDir home) with
  | mk e1 fs1 =>
    cases e1 with
    | some err => simp [hm] at h
    | none =>
      simp only [hm] at h
      cases hc1 : copyFile limit1 (kubeConfigPath home) (backupPath home now) fs1 with
      | mk e2 fs2 =>
        cases e2 with
        | some err => simp [hc1] at h
        | none =>
          simp only [hc1] at h
          cases hc2 : copyFile limit2 newConfigPath (kubeConfigPath home) fs2 with
          | mk e3 fs3 =>
            cases e3 with
            | some err => simp [hc2] at h
            | none =>
              refine ⟨fs1, fs2, fs3, rfl, hc1, hc2, ?_⟩
              simp [swapConfig, hm, hc1, hc2]

/-- The four ways a swap can end, with the file system each leaves. -/
theorem swapConfig_cases (home : Path) (now : Time) (limit1 limit2 : Option Nat)
    (newConfigPath : Path) (w : World) :
    (∃ err, (os.MkdirAll w.fs (backupDir home)).1 = some err ∧
      swapConfig home now limit1 limit2 newConfigPath w =
        (some (.wrap "failed to create backup directory" err),
          ⟨(os.MkdirAll w.fs (backupDir home)).2, w.stdout⟩)) ∨
    (∃ err, (os.MkdirAll w.fs (backupDir home)).1 = none ∧
      (copyFile limit1 (kubeConfigPath home) (backupPath home now)
        (os.MkdirAll w.fs (backupDir home)).2).1 = some err ∧
      swapConfig home now limit1 limit2 newConfigPath w =
        (some (.wrap "failed to backup current config" err),
          ⟨(copyFile limit1 (kubeConfigPath home) (backupPath home now)
            (os.MkdirAll w.fs (backupDir home)).2).2, w.stdout⟩)) ∨
    (∃ err, (os.MkdirAll w.fs (backupDir home)).1 = none ∧
      (copyFile limit1 (kubeConfigPath home) (backupPath home now)
        (os.MkdirAll w.fs (backupDir home)).2).1 = none ∧
      (copyFile limit2 newConfigPath (kubeConfigPath home)
        (copyFile limit1 (kubeConfigPath home) (backupPath home now)
          (os.MkdirAll w.fs (backupDir home)).2).2).1 = some err ∧
      swapConfig home now limit1 limit2 newConfigPath w =
        (some (.wrap "failed to set new config" err),
          ⟨(copyFile limit2 newConfigPath (kubeConfigPath home)
            (copyFile limit1 (kubeConfigPath home) (backupPath home now)
              (os.MkdirAll w.fs (backupDir home)).2).2).2, w.stdout⟩)) ∨
    ((os.MkdirAll w.fs (backupDir home)).1 = none ∧
      (copyFile limit1 (kubeConfigPath home) (backupPath home now)
        (os.MkdirAll w.fs (backupDir home)).2).1 = none ∧
      (copyFile limit2 newConfigPath (kubeConfigPath home)
        (copyFile limit1 (kubeConfigPath home) (backupPath home now)
          (os.MkdirAll w.fs (backupDir home)).2).2).1 = none ∧
      swapConfig home now limit1 limit2 newConfigPath w =
        (none,
          ⟨(copyFile limit2 newConfigPath (kubeConfigPath home)
            (copyFile limit1 (kubeConfigPath home) (backupPath home now)
              (os.MkdirAll w.fs (backupDir home)).2).2).2,
            w.stdout ++ ["Successfully swapped to new config: " ++ pathString newConfigPath,
              "Old config backed up to: " ++ pathString (backupPath home now)]⟩)) := by
  unfold swapConfig
  cases hm : os.MkdirAll w.fs (backupDir home) with
  | mk e1 fs1 =>
    cases e1 with
    | some err => left; exact ⟨err, rfl, rfl⟩
    | none =>
      right
      cases hc1 : copyFile limit1 (kubeConfigPath home) (backupPath home now) fs1 with
      | mk e2 fs2 =>
        cases e2 with
        | some err =>
          left
          refine ⟨err, ?_⟩
          simp [hc1]
        | none =>
          right
          cases hc2 : copyFile limit2 newConfigPath (kubeConfigPath home) fs2 with
          | mk e3 fs3 =>
            cases e3 with
            | some err =>
              left
              refine ⟨err, ?_⟩
              simp [hc1, hc2]
            | none =>
              right
              simp [hc1, hc2]

/-- A copy from a path with no node fails at `os.Open` and changes nothing. -/
theorem copyFile_src_absent (limit : Option Nat) {src : Path} (dst : Path) {fs : FS}
    (h : lookup fs src = none) :
    ∃ c, copyFile limit src dst fs = (some (.path "open" src c), fs) := by
  obtain ⟨e, he⟩ := stat_error_of_lookup_none fs src h
  refine ⟨e, ?_⟩
  unfold copyFile os.Open
  simp [he]

theorem writableFile_of_stat {fs : FS} {p : Path} {perm : Perm} {data : Bytes}
    (hs : stat fs p = .ok (.file perm data)) (hr : perm.r = true) (hw : perm.w = true) :
    writableFile fs p = true := by
  unfold writableFile
  simp [hs, hr, hw]

theorem backupPath_sameSecond (home : Path) {t1 t2 : Time} (h : sameSecond t1 t2) :
    backupPath home t1 = backupPath home t2 := by
  obtain ⟨h1, h2, h3, h4, h5, h6⟩ := h
  unfold backupPath Time.Format
  rw [h1, h2, h3, h4, h5, h6]

/-- With the parent in place, `MkdirAll` makes at most one directory. -/
theorem MkdirAll_one {fs : FS} {par : Path} (name : String) {perm : Perm}
    (hpar : stat fs par = .ok (.dir perm)) :
    (os.MkdirAll fs (par ++ [name])).2 = fs ∨
      (os.MkdirAll fs (par ++ [name])).2 = store fs (par ++ [name]) (.dir dirPerm) := by
  have hrec : os.MkdirAllRev fs par.reverse = (none, fs) := by
    apply MkdirAllRev_of_dir perm
    rw [List.reverse_reverse]
    exact hpar
  unfold os.MkdirAll
  simp only [List.reverse_append, List.reverse_cons, List.reverse_nil, List.nil_append,
    List.singleton_append]
  unfold os.MkdirAllRev
  simp only [List.reverse_cons, List.reverse_reverse, hrec]
  split
  · left; rfl
  · left; rfl
  · rcases mkdirLast_cases fs (par ++ [name]) with h | ⟨_, h⟩
    · left; exact h
    · right; rw [h]

/-! ## The timestamp -/

theorem toDigitsCore_step (fuel n : Nat) (ds : List Char) (h : n / 10 ≠ 0) :
    Nat.toDigitsCore 10 (fuel + 1) n ds =
      Nat.toDigitsCore 10 fuel (n / 10) (Nat.digitChar (n % 10) :: ds) := by
  simp [Nat.toDigitsCore, h]

theorem toDigitsCore_last (fuel n : Nat) (ds : List Char) (h : n / 10 = 0) :
    Nat.toDigitsCore 10 (fuel + 1) n ds = Nat.digitChar (n % 10) :: ds := by
  simp [Nat.toDigitsCore, h]

theorem repr_one_digit (n : Nat) (h : n < 10) :
    (Nat.repr n).data = [Nat.digitChar (n % 10)] := by
  unfold Nat.repr Nat.toDigits
  rw [toDigitsCore_last _ _ _ (by omega)]
  rfl

theorem repr_two_digits (n : Nat) (h1 : 10 ≤ n) (h : n < 100) :
    (Nat.repr n).data = [Nat.digitChar (n / 10 % 10), Nat.digitChar (n % 10)] := by
  obtain ⟨m, rfl⟩ : ∃ m, n = m + 10 := ⟨n - 10, by omega⟩
  unfold Nat.repr Nat.toDigits
  rw [toDigitsCore_step _ _ _ (by omega)]
  rw [show m + 10 = (m + 9) + 1 from rfl, toDigitsCore_last _ _ _ (by omega)]
  rfl

theorem repr_three_digits (n : Nat) (h1 : 100 ≤ n) (h : n < 1000) :
    (Nat.repr n).data =
      [Nat.digitChar (n / 10 / 10 % 10), Nat.digitChar (n / 10 % 10), Nat.digitChar (n % 10)] := by
  obtain ⟨m, rfl⟩ : ∃ m, n = m + 100 := ⟨n - 100, by omega⟩
  unfold Nat.repr Nat.toDigits
  rw [toDigitsCore_step _ _ _ (by omega)]
  rw [show m + 100 = (m + 99) + 1 from rfl, toDigitsCore_step _ _ _ (by omega)]
  rw [show m + 99 = (m + 98) + 1 from rfl, toDigitsCore_last _ _ _ (by omega)]
  rfl

theorem repr_four_digits (n : Nat) (h1 : 1000 ≤ n) (h : n < 10000) :
    (Nat.repr n).data =
      [Nat.digitChar (n / 10 / 10 / 10 % 10), Nat.digitChar (n / 10 / 10 % 10),
        Nat.digitChar (n / 10 % 10), Nat.digitChar (n % 10)] := by
  obtain ⟨m, rfl⟩ : ∃ m, n = m + 1000 := ⟨n - 1000, by omega⟩
  unfold Nat.repr Nat.toDigits
  rw [toDigitsCore_step _ _ _ (by omega)]
  rw [show m + 1000 = (m + 999) + 1 from rfl, toDigitsCore_step _ _ _ (by omega)]
  rw [show m + 999 = (m + 998) + 1 from rfl, toDigitsCore_step _ _ _ (by omega)]
  rw [show m + 998 = (m + 997) + 1 from rfl, toDigitsCore_last _ _ _ (by omega)]
  rfl

/-- What `zeroPad` writes, from the digits of the number. -/
theorem zeroPad_data (width n : Nat) (ds : List Char) (h : (Nat.repr n).data = ds) :
    (zeroPad width n).data = ("".pushn '0' (width - ds.length)).data ++ ds := by
  unfold zeroPad
  rw [String.data_append, ← String.length_data, h]

theorem zeroPad_two (n : Nat) (h : n < 100) :
    (zeroPad 2 n).data = [decimalDigit n 10, decimalDigit n 1] := by
  unfold decimalDigit
  by_cases h1 : n < 10
  · rw [zeroPad_data 2 n _ (repr_one_digit n h1)]
    have h0 : n / 10 % 10 = 0 := by omega
    rw [h0, Nat.div_one]
    rfl
  · rw [zeroPad_data 2 n _ (repr_two_digits n (by omega) h), Nat.div_one]
    rfl

theorem zeroPad_four (n : Nat) (h : n < 10000) :
    (zeroPad 4 n).data =
      [decimalDigit n 1000, decimalDigit n 100, decimalDigit n 10, decimalDigit n 1] := by
  unfold decimalDigit
  have e3 : n / 10 / 10 / 10 = n / 1000 := by omega
  have e2 : n / 10 / 10 = n / 100 := by omega
  by_cases h1 : n < 10
  · rw [zeroPad_data 4 n _ (repr_one_digit n h1)]
    have a3 : n / 1000 % 10 = 0 := by omega
    have a2 : n / 100 % 10 = 0 := by omega
    have a1 : n / 10 % 10 = 0 := by omega
    rw [a3, a2, a1, Nat.div_one]
    rfl
  · by_cases h2 : n < 100
    · rw [zeroPad_data 4 n _ (repr_two_digits n (by omega) h2)]
      have a3 : n / 1000 % 10 = 0 := by omega
      have a2 : n / 100 % 10 = 0 := by omega
      rw [a3, a2, Nat.div_one]
      rfl
    · by_cases h3 : n < 1000
      · rw [zeroPad_data 4 n _ (repr_three_digits n (by omega) h3)]
        have a3 : n / 1000 % 10 = 0 := by omega
        rw [a3, e2, Nat.div_one]
        rfl
      · rw [zeroPad_data 4 n _ (repr_four_digits n (by omega) h), e3, e2, Nat.div_one]
        rfl

/-- The format of the source writes the text `YYYYMMDD_HHMMSS` of the reading. -/
theorem Format_eq_stampText (t : Time) (h : validClock t) : t.Format = stampText t := by
  obtain ⟨hy, _, hm, _, hd, hh, hmi, hs⟩ := h
  apply String.ext
  unfold Time.Format stampText
  simp only [String.data_append]
  rw [zeroPad_four _ hy, zeroPad_two _ (by omega), zeroPad_two _ (by omega),
    zeroPad_two _ (by omega), zeroPad_two _ (by omega), zeroPad_two _ (by omega)]
  rfl

theorem digitChar_inj (a b : Nat) (ha : a < 10) (hb : b < 10)
    (h : Nat.digitChar a = Nat.digitChar b) : a = b := by
  interval_cases a <;> interval_cases b <;> first | rfl | (exact absurd h (by decide))

theorem decimalDigit_inj (a b unit : Nat) (h : decimalDigit a unit = decimalDigit b unit) :
    a / unit % 10 = b / unit % 10 :=
  digitChar_inj _ _ (Nat.mod_lt _ (by decide)) (Nat.mod_lt _ (by decide)) h

/-- The text of a reading determines its second. -/
theorem stampText_inj (t1 t2 : Time) (h1 : validClock t1) (h2 : validClock t2)
    (h : stampText t1 = stampText t2) : sameSecond t1 t2 := by
  obtain ⟨hy1, _, hm1, _, hd1, hh1, hmi1, hs1⟩ := h1
  obtain ⟨hy2, _, hm2, _, hd2, hh2, hmi2, hs2⟩ := h2
  have h := congrArg String.data h
  unfold stampText at h
  simp only [List.cons.injEq, and_true, true_and] at h
  obtain ⟨y3, y2, y1, y0, m1, m0, d1, d0, hr1, hr0, mi1, mi0, s1, s0⟩ := h
  have y3 := decimalDigit_inj _ _ _ y3
  have y2 := decimalDigit_inj _ _ _ y2
  have y1 := decimalDigit_inj _ _ _ y1
  have y0 := decimalDigit_inj _ _ _ y0
  have m1 := decimalDigit_inj _ _ _ m1
  have m0 := decimalDigit_inj _ _ _ m0
  have d1 := decimalDigit_inj _ _ _ d1
  have d0 := decimalDigit_inj _ _ _ d0
  have hr1 := decimalDigit_inj _ _ _ hr1
  have hr0 := decimalDigit_inj _ _ _ hr0
  have mi1 := decimalDigit_inj _ _ _ mi1
  have mi0 := decimalDigit_inj _ _ _ mi0
  have s1 := decimalDigit_inj _ _ _ s1
  have s0 := decimalDigit_inj _ _ _ s0
  simp only [Nat.div_one] at y0 m0 d0 hr0 mi0 s0
  refine ⟨?_, ?_, ?_, ?_, ?_, ?_⟩ <;> omega

/-- The backup path of a reading: under the backup directory, the name
`config_backup_` followed by the text `YYYYMMDD_HHMMSS` of the reading. -/
theorem backupPath_eq_stampText (home : Path) (t : Time) (h : validClock t) :
    backupPath home t =
      home ++ [".kube", "kubeswap_backups", "config_backup_" ++ stampText t] := by
  unfold backupPath backupDir
  rw [Format_eq_stampText t h]
  simp

/-- Readings with the same backup path are in the same second. -/
theorem sameSecond_of_backupPath (home : Path) (t1 t2 : Time) (h1 : validClock t1)
    (h2 : validClock t2) (h : backupPath home t1 = backupPath home t2) : sameSecond t1 t2 := by
  rw [backupPath_eq_stampText home t1 h1, backupPath_eq_stampText home t2 h2] at h
  have h := List.append_cancel_left h
  simp only [List.cons.injEq, and_true, true_and] at h
  have hd := congrArg String.data h
  simp only [String.data_append] at hd
  exact stampText_inj t1 t2 h1 h2 (String.ext (List.append_cancel_left hd))

/-! ## Directory listing -/

theorem printBackups_eq_filter (files : List String) :
    printBackups files = files.filter (fun name => hasPrefix name "config_backup_") := by
  induction files with
  | nil => rfl
  | cons file rest ih =>
    unfold printBackups
    by_cases h : hasPrefix file "config_backup_" = true
    · simp [h, ih]
    · simp [h, ih]

theorem hasPrefix_iff (s pre : String) : hasPrefix s pre = true ↔ ∃ rest, s = pre ++ rest := by
  unfold hasPrefix
  rw [List.isPrefixOf_iff_prefix]
  constructor
  · rintro ⟨t, ht⟩
    refine ⟨⟨t⟩, ?_⟩
    apply String.ext
    simp [String.data_append, ht]
  · rintro ⟨rest, h⟩
    exact ⟨rest.data, by rw [h, String.data_append]⟩

theorem mem_insertName (a x : String) (l : List String) :
    x ∈ os.insertName a l ↔ x = a ∨ x ∈ l := by
  induction l with
  | nil => simp [os.insertName]
  | cons b rest ih =>
    unfold os.insertName
    by_cases h1 : a.data < b.data
    · simp [h1]
    · by_cases h2 : a = b
      · subst h2
        simp [h1]
      · simp only [h1, h2, if_false, List.mem_cons, ih]
        tauto

theorem insertName_sorted (a : String) (l : List String) (h : l.Pairwise (· < ·)) :
    (os.insertName a l).Pairwise (· < ·) := by
  induction l with
  | nil => simp [os.insertName]
  | cons b rest ih =>
    obtain ⟨hb, hrest⟩ := List.pairwise_cons.mp h
    unfold os.insertName
    by_cases h1 : a.data < b.data
    · simp only [h1, if_true]
      have h1s : a < b := String.lt_iff_toList_lt.mpr h1
      refine List.pairwise_cons.mpr ⟨?_, h⟩
      intro x hx
      rcases List.mem_cons.mp hx with hx | hx
      · rw [hx]; exact h1s
      · exact lt_trans h1s (hb x hx)
    · by_cases h2 : a = b
      · subst h2
        simp only [h1, if_false, if_true]
        exact h
      · simp only [h1, h2, if_false]
        have h1s : ¬ a < b := fun h => h1 (String.lt_iff_toList_lt.mp h)
        have hba : b < a := lt_of_le_of_ne (not_lt.mp h1s) (fun h => h2 h.symm)
        refine List.pairwise_cons.mpr ⟨?_, ih hrest⟩
        intro x hx
        rcases (mem_insertName a x rest).mp hx with hx | hx
        · rw [hx]; exact hba
        · exact hb x hx

theorem children_sorted (d : Path) (fs : FS) : (os.children d fs).Pairwise (· < ·) := by
  induction fs with
  | nil => simp [os.children]
  | cons hd tl ih =>
    obtain ⟨q, n⟩ := hd
    unfold os.children
    split
    · split
      · exact insertName_sorted _ _ ih
      · exact ih
    · exact ih

theorem lookup_ne_none_iff (fs : FS) (p : Path) : lookup fs p ≠ none ↔ ∃ n, (p, n) ∈ fs := by
  induction fs with
  | nil => simp [lookup]
  | cons hd tl ih =>
    obtain ⟨q, m⟩ := hd
    unfold lookup
    by_cases h : q = p
    · subst h
      simp
    · have h1 : ¬ p = q := fun hh => h hh.symm
      simp [h, h1, ih]

theorem mem_children (d : Path) (fs : FS) (name : String) :
    name ∈ os.children d fs ↔ lookup fs (d ++ [name]) ≠ none := by
  rw [lookup_ne_none_iff]
  induction fs with
  | nil => simp [os.children]
  | cons hd tl ih =>
    obtain ⟨q, n⟩ := hd
    unfold os.children
    cases hl : q.getLast? with
    | none =>
      have hq : q = [] := List.getLast?_eq_none_iff.mp hl
      subst hq
      simp [ih]
    | some last =>
      have hq : q.dropLast ++ [last] = q := List.dropLast_append_getLast? last (by simp [hl])
      simp only
      by_cases hd : q.dropLast = d
      · simp only [hd, if_true, mem_insertName, ih, List.mem_cons, Prod.mk.injEq]
        rw [hd] at hq
        constructor
        · rintro (h | ⟨m, h⟩)
          · exact ⟨n, Or.inl ⟨by rw [h, hq], rfl⟩⟩
          · exact ⟨m, Or.inr h⟩
        · rintro ⟨m, ⟨h, _⟩ | h⟩
          · left
            rw [← hq] at h
            simpa using h
          · exact Or.inr ⟨m, h⟩
      · simp only [hd, if_false, ih, List.mem_cons, Prod.mk.injEq]
        constructor
        · rintro ⟨m, h⟩
          exact ⟨m, Or.inr h⟩
        · rintro ⟨m, ⟨h, _⟩ | h⟩
          · exfalso
            apply hd
            rw [← h]
            simp
          · exact ⟨m, h⟩

theorem ReadDir_ok {fs : FS} {d : Path} {files : List String}
    (h : os.ReadDir fs d = .ok files) : files = os.children d fs := by
  unfold os.ReadDir at h
  split at h
  · simp at h
  · simp at h
  · split at h
    · simp only [Except.ok.injEq] at h
      exact h.symm
    · simp at h

/-! ## The swap -/

/-- C1 (as amended): when the active config can be read and written, the
replacement can be read and is neither the active config nor the backup path,
the backup directory and file are usable and the device takes all bytes,
`swapConfig` succeeds and the active config then holds the bytes the replacement
held when the swap began. -/
theorem swapConfig_installs_replacement (home : Path) (now : Time) (limit1 limit2 : Option Nat)
    (newConfigPath : Path) (w : World) (A B : Bytes)
    (hcfg : readFile w.fs (kubeConfigPath home) = some A)
    (hwr : writableFile w.fs (kubeConfigPath home) = true)
    (hnew : readFile w.fs newConfigPath = some B)
    (hdir : backupDirUsable home w.fs = true)
    (hslot : backupSlotUsable home now w.fs = true)
    (hne1 : newConfigPath ≠ kubeConfigPath home)
    (hne2 : newConfigPath ≠ backupPath home now)
    (hf1 : noFault limit1 A = true) (hf2 : noFault limit2 B = true) :
    (swapConfig home now limit1 limit2 newConfigPath w).1 = none ∧
      readFile (swapConfig home now limit1 limit2 newConfigPath w).2.fs (kubeConfigPath home) =
        some B := by
  obtain ⟨fs3, pc, pd, pb, hres, hlk, ⟨hcr, _⟩, _, hwalk⟩ :=
    swapConfig_ok hcfg hwr hnew hdir hslot hne1 hne2 hf1 hf2
  rw [hres]
  refine ⟨rfl, ?_⟩
  rw [readFile_eq_some]
  refine ⟨pc, (stat_ok_iff _ _ _).mpr ⟨hwalk, ?_⟩, hcr⟩
  rw [hlk]; simp

theorem swapConfig_installs_replacement_witness :
    (swapConfig homeU sampleTime none (some 1) ["tmp", "new"] sampleWorld).1 = none ∧
      readFile (swapConfig homeU sampleTime none (some 1) ["tmp", "new"] sampleWorld).2.fs
        (kubeConfigPath homeU) = some [66] :=
  swapConfig_installs_replacement homeU sampleTime none (some 1) ["tmp", "new"] sampleWorld
    [65] [66] (by decide) (by decide) (by decide) (by decide) (by decide) (by decide)
    (by decide) (by decide) (by decide)

/-- C1 (as stated) fails in three ways.  With the active config as its own
replacement the config ends empty; with an existing file at the backup path as
the replacement the config ends with its old bytes; with an active config that
may be read but not written the swap fails. -/
theorem swapConfig_installs_replacement_counterexample :
    (readFile sampleFS (kubeConfigPath homeU) = some [65] ∧
      backupDirUsable homeU sampleFS = true ∧
      backupSlotUsable homeU sampleTime sampleFS = true ∧
      (swapConfig homeU sampleTime none none (kubeConfigPath homeU) sampleWorld).1 = none ∧
      readFile (swapConfig homeU sampleTime none none (kubeConfigPath homeU) sampleWorld).2.fs
        (kubeConfigPath homeU) = some []) ∧
    (readFile collisionFS (kubeConfigPath homeU) = some [65] ∧
      readFile collisionFS (backupPath homeU sampleTime) = some [90] ∧
      backupDirUsable homeU collisionFS = true ∧
      backupSlotUsable homeU sampleTime collisionFS = true ∧
      (swapConfig homeU sampleTime none none (backupPath homeU sampleTime)
        ⟨collisionFS, []⟩).1 = none ∧
      readFile (swapConfig homeU sampleTime none none (backupPath homeU sampleTime)
        ⟨collisionFS, []⟩).2.fs (kubeConfigPath homeU) = some [65]) ∧
    (readFile readOnlyFS (kubeConfigPath homeU) = some [65] ∧
      readFile readOnlyFS ["tmp", "new"] = some [66] ∧
      backupDirUsable homeU readOnlyFS = true ∧
      backupSlotUsable homeU sampleTime readOnlyFS = true ∧
      (swapConfig homeU sampleTime none none ["tmp", "new"] ⟨readOnlyFS, []⟩).1 =
        some (.wrap "failed to set new config"
          (.path "open" (kubeConfigPath homeU) .EACCES))) := by
  refine ⟨?_, ?_, ?_⟩ <;> decide

/-- C2 (as amended): when no entry with the name of the backup is in the backup
directory before the swap, a successful `swapConfig` leaves there a new file
`config_backup_<timestamp>` holding the bytes the active config had before the
swap; every other entry of the backup directory is as before, and so is every
node that existed, the active config apart. -/
theorem swapConfig_makes_backup (home : Path) (now : Time) (limit1 limit2 : Option Nat)
    (newConfigPath : Path) (w : World)
    (hok : (swapConfig home now limit1 limit2 newConfigPath w).1 = none)
    (hfresh : lookup w.fs (backupPath home now) = none) :
    ∃ pc A, lookup w.fs (kubeConfigPath home) = some (.file pc A) ∧
      lookup (swapConfig home now limit1 limit2 newConfigPath w).2.fs
        (backupDir home ++ ["config_backup_" ++ now.Format]) = some (.file filePerm A) ∧
      (∀ name, name ≠ "config_backup_" ++ now.Format →
        lookup (swapConfig home now limit1 limit2 newConfigPath w).2.fs (backupDir home ++ [name]) =
          lookup w.fs (backupDir home ++ [name])) ∧
      (∀ q n, q ≠ kubeConfigPath home → lookup w.fs q = some n →
        lookup (swapConfig home now limit1 limit2 newConfigPath w).2.fs q = some n) := by
  obtain ⟨fs1, fs2, fs3, hm, hc1, hc2, hres⟩ := swapConfig_none hok
  rw [hres]
  have hfs1 : fs1 = (os.MkdirAll w.fs (backupDir home)).2 := by rw [hm]
  have hfs2 : fs2 = (copyFile limit1 (kubeConfigPath home) (backupPath home now) fs1).2 := by
    rw [hc1]
  have hfs3 : fs3 = (copyFile limit2 newConfigPath (kubeConfigPath home) fs2).2 := by rw [hc2]
  obtain ⟨ps, pd, data, hsrc, hst2, hold⟩ := copyFile_none hc1
  have hbp1 : lookup fs1 (backupPath home now) = none := by
    rw [hfs1, MkdirAll_off_path _ _ _ (not_backupPath_le_backupDir home now)]; exact hfresh
  have hpd : pd = filePerm := by
    rcases hold with ⟨_, h⟩ | ⟨old, h⟩
    · exact h
    · rw [hbp1] at h; simp at h
  subst hpd
  rw [lookup_store_ne _ _ _ _ (kubeConfigPath_ne_backupPath home now).symm] at hsrc
  rw [hfs1, MkdirAll_off_path _ _ _ (not_kubeConfigPath_le_backupDir home)] at hsrc
  have hfr3 : ∀ q, q ≠ kubeConfigPath home → lookup fs3 q = lookup fs2 q := by
    intro q hq
    rw [hfs3]; exact copyFile_frame _ _ _ _ q hq
  have hfr2 : ∀ q, q ≠ backupPath home now → lookup fs2 q = lookup fs1 q := by
    intro q hq
    rw [hfs2]; exact copyFile_frame _ _ _ _ q hq
  refine ⟨ps, data, hsrc, ?_, ?_, ?_⟩
  · show lookup fs3 (backupPath home now) = _
    rw [hfr3 _ (kubeConfigPath_ne_backupPath home now).symm, hst2]
    exact lookup_store_self _ _ _
  · intro name hname
    have hne : backupDir home ++ [name] ≠ backupPath home now := by
      intro h
      apply hname
      simpa [backupPath] using h
    rw [hfr3 _ (child_ne_kubeConfigPath home name), hfr2 _ hne, hfs1,
      MkdirAll_off_path _ _ _ (not_child_le_backupDir home name)]
  · intro q n hq hl
    have hne : q ≠ backupPath home now := by
      intro h; rw [h, hfresh] at hl; simp at hl
    rw [hfr3 _ hq, hfr2 _ hne, hfs1]
    exact MkdirAll_keeps _ _ _ _ hl

theorem swapConfig_makes_backup_witness :
    ∃ pc A, lookup sampleWorld.fs (kubeConfigPath homeU) = some (.file pc A) ∧
      lookup (swapConfig homeU sampleTime none none ["tmp", "new"] sampleWorld).2.fs
        (backupDir homeU ++ ["config_backup_" ++ sampleTime.Format]) = some (.file filePerm A) ∧
      (∀ name, name ≠ "config_backup_" ++ sampleTime.Format →
        lookup (swapConfig homeU sampleTime none none ["tmp", "new"] sampleWorld).2.fs
            (backupDir homeU ++ [name]) =
          lookup sampleWorld.fs (backupDir homeU ++ [name])) ∧
      (∀ q n, q ≠ kubeConfigPath homeU → lookup sampleWorld.fs q = some n →
        lookup (swapConfig homeU sampleTime none none ["tmp", "new"] sampleWorld).2.fs q =
          some n) :=
  swapConfig_makes_backup homeU sampleTime none none ["tmp", "new"] sampleWorld
    (by decide) (by decide)

/-- C2 (as stated) fails when a backup with the same name is there already: the
swap succeeds, the backup directory has the same entries as before, none of
them new, and the backup "Z" that was there has been overwritten. -/
theorem swapConfig_makes_backup_counterexample :
    readFile collisionFS (kubeConfigPath homeU) = some [65] ∧
    readFile collisionFS ["tmp", "new"] = some [66] ∧
    backupDirUsable homeU collisionFS = true ∧
    backupSlotUsable homeU sampleTime collisionFS = true ∧
    os.ReadDir collisionFS (backupDir homeU) = .ok [sampleBackupName] ∧
    lookup collisionFS (backupPath homeU sampleTime) = some (.file filePerm [90]) ∧
    (swapConfig homeU sampleTime none none ["tmp", "new"] ⟨collisionFS, []⟩).1 = none ∧
    os.ReadDir (swapConfig homeU sampleTime none none ["tmp", "new"] ⟨collisionFS, []⟩).2.fs
      (backupDir homeU) = .ok [sampleBackupName] ∧
    lookup (swapConfig homeU sampleTime none none ["tmp", "new"] ⟨collisionFS, []⟩).2.fs
      (backupPath homeU sampleTime) = some (.file filePerm [65]) := by
  decide

/-- C3: when `swapConfig` fails with "failed to create backup directory" or with
"failed to backup current config", the node at the path of the active config is
what it was before the call (absent if it was absent, the same file with the
same bytes otherwise) and nothing was printed. -/
theorem swapConfig_backup_failure_keeps_config (home : Path) (now : Time)
    (limit1 limit2 : Option Nat) (newConfigPath : Path) (w : World) (cause : Error)
    (hfail : (swapConfig home now limit1 limit2 newConfigPath w).1 =
        some (.wrap "failed to create backup directory" cause) ∨
      (swapConfig home now limit1 limit2 newConfigPath w).1 =
        some (.wrap "failed to backup current config" cause)) :
    lookup (swapConfig home now limit1 limit2 newConfigPath w).2.fs (kubeConfigPath home) =
        lookup w.fs (kubeConfigPath home) ∧
      (swapConfig home now limit1 limit2 newConfigPath w).2.stdout = w.stdout := by
  have hmk := MkdirAll_off_path w.fs home _ (not_kubeConfigPath_le_backupDir home)
  rcases swapConfig_cases home now limit1 limit2 newConfigPath w with
    ⟨err, _, h⟩ | ⟨err, _, _, h⟩ | ⟨err, _, _, _, h⟩ | ⟨_, _, _, h⟩
  · rw [h]; exact ⟨hmk, rfl⟩
  · rw [h]
    refine ⟨?_, rfl⟩
    show lookup (copyFile _ _ _ _).2 _ = _
    rw [copyFile_frame _ _ _ _ _ (kubeConfigPath_ne_backupPath home now), hmk]
  · rw [h] at hfail
    rcases hfail with h1 | h1
    · simp only [Option.some.injEq, Error.wrap.injEq] at h1
      exact absurd h1.1 (by decide)
    · simp only [Option.some.injEq, Error.wrap.injEq] at h1
      exact absurd h1.1 (by decide)
  · rw [h] at hfail
    rcases hfail with h1 | h1 <;> simp at h1

theorem swapConfig_backup_failure_keeps_config_witness :
    lookup (swapConfig homeU sampleTime none none ["tmp", "new"] ⟨blockedFS, []⟩).2.fs
        (kubeConfigPath homeU) = some (.file filePerm [65]) ∧
      (swapConfig homeU sampleTime none none ["tmp", "new"] ⟨blockedFS, []⟩).2.stdout = [] :=
  swapConfig_backup_failure_keeps_config homeU sampleTime none none ["tmp", "new"]
    ⟨blockedFS, []⟩ (.path "mkdir" (backupDir homeU) .ENOTDIR) (Or.inl (by decide))

/-- C4 (as amended): when there is no active config, `swapConfig` returns an
error, prints nothing and writes no file: every node that existed is as it was,
no entry is added to the backup directory, and the only new nodes are empty
directories on the way to the backup directory (the backup directory itself
when it was absent); when the backup directory exists already the file system is
left as it was. -/
theorem swapConfig_without_config (home : Path) (now : Time) (limit1 limit2 : Option Nat)
    (newConfigPath : Path) (w : World)
    (habs : lookup w.fs (kubeConfigPath home) = none) :
    (∃ e, (swapConfig home now limit1 limit2 newConfigPath w).1 = some e) ∧
      (swapConfig home now limit1 limit2 newConfigPath w).2.stdout = w.stdout ∧
      (∀ q n, lookup w.fs q = some n →
        lookup (swapConfig home now limit1 limit2 newConfigPath w).2.fs q = some n) ∧
      (∀ q, lookup w.fs q = none →
        lookup (swapConfig home now limit1 limit2 newConfigPath w).2.fs q = none ∨
          (lookup (swapConfig home now limit1 limit2 newConfigPath w).2.fs q =
            some (.dir dirPerm) ∧ q <+: backupDir home)) ∧
      (∀ name, lookup (swapConfig home now limit1 limit2 newConfigPath w).2.fs
        (backupDir home ++ [name]) = lookup w.fs (backupDir home ++ [name])) ∧
      (∀ perm, stat w.fs (backupDir home) = .ok (.dir perm) →
        (swapConfig home now limit1 limit2 newConfigPath w).2.fs = w.fs) := by
  have hc1 : lookup (os.MkdirAll w.fs (backupDir home)).2 (kubeConfigPath home) = none := by
    rw [MkdirAll_off_path _ _ _ (not_kubeConfigPath_le_backupDir home)]; exact habs
  obtain ⟨c, hcopy⟩ := copyFile_src_absent limit1 (backupPath home now) hc1
  have key : (∃ e, (swapConfig home now limit1 limit2 newConfigPath w).1 = some e) ∧
      (swapConfig home now limit1 limit2 newConfigPath w).2.stdout = w.stdout ∧
      (swapConfig home now limit1 limit2 newConfigPath w).2.fs =
        (os.MkdirAll w.fs (backupDir home)).2 := by
    rcases swapConfig_cases home now limit1 limit2 newConfigPath w with
      ⟨err, _, h⟩ | ⟨err, _, _, h⟩ | ⟨err, _, h1, _, _⟩ | ⟨_, h1, _, _⟩
    · rw [h]; exact ⟨⟨_, rfl⟩, rfl, rfl⟩
    · rw [h, hcopy]; exact ⟨⟨_, rfl⟩, rfl, rfl⟩
    · rw [hcopy] at h1; simp at h1
    · rw [hcopy] at h1; simp at h1
  obtain ⟨herr, hout, hfs⟩ := key
  rw [hfs]
  refine ⟨herr, hout, ?_, ?_, ?_, ?_⟩
  · intro q n hq
    exact MkdirAll_keeps _ _ _ _ hq
  · intro q hq
    rcases MkdirAll_frame w.fs (backupDir home) q with h | ⟨_, h1, h2⟩
    · left; rw [h]; exact hq
    · right; exact ⟨h1, h2⟩
  · intro name
    exact MkdirAll_off_path _ _ _ (not_child_le_backupDir home name)
  · intro perm hst
    rw [MkdirAll_of_dir hst]

theorem swapConfig_without_config_witness :
    (∃ e, (swapConfig homeU sampleTime none none ["tmp", "new"] ⟨noConfigFS, []⟩).1 = some e) ∧
      (swapConfig homeU sampleTime none none ["tmp", "new"] ⟨noConfigFS, []⟩).2.stdout = [] ∧
      (∀ name, lookup (swapConfig homeU sampleTime none none ["tmp", "new"]
        ⟨noConfigFS, []⟩).2.fs (backupDir homeU ++ [name]) =
          lookup noConfigFS (backupDir homeU ++ [name])) :=
  have h := swapConfig_without_config homeU sampleTime none none ["tmp", "new"]
    ⟨noConfigFS, []⟩ (by decide)
  ⟨h.1, h.2.1, h.2.2.2.2.1⟩

/-- C4 (as stated) fails when the backup directory is absent: the failing swap
has made it. -/
theorem swapConfig_without_config_counterexample :
    lookup noConfigFS (kubeConfigPath homeU) = none ∧
    lookup noConfigFS (backupDir homeU) = none ∧
    swapConfig homeU sampleTime none none ["tmp", "new"] ⟨noConfigFS, []⟩ =
      (some (.wrap "failed to backup current config"
        (.path "open" (kubeConfigPath homeU) .ENOENT)),
       ⟨noConfigFS ++ [(backupDir homeU, .dir dirPerm)], []⟩) ∧
    lookup (swapConfig homeU sampleTime none none ["tmp", "new"] ⟨noConfigFS, []⟩).2.fs
      (backupDir homeU) = some (.dir dirPerm) := by
  decide

/-- C5 (as amended): when the active config exists and the replacement path has
no node, is not the backup path and is not the backup directory or a directory
above it, `swapConfig` returns an error, prints nothing and leaves the node of
the active config as it was; the error is that of one of the three steps, and
it is "failed to set new config", from opening the replacement, whenever the
first two steps meet no obstacle. -/
theorem swapConfig_missing_replacement (home : Path) (now : Time) (limit1 limit2 : Option Nat)
    (newConfigPath : Path) (w : World) (n : Node)
    (hcfg : lookup w.fs (kubeConfigPath home) = some n)
    (hnew : lookup w.fs newConfigPath = none)
    (hne : newConfigPath ≠ backupPath home now)
    (hpre : ¬ newConfigPath <+: backupDir home) :
    lookup (swapConfig home now limit1 limit2 newConfigPath w).2.fs (kubeConfigPath home) =
        some n ∧
      (swapConfig home now limit1 limit2 newConfigPath w).2.stdout = w.stdout ∧
      ((∃ c, (swapConfig home now limit1 limit2 newConfigPath w).1 =
          some (.wrap "failed to create backup directory" c)) ∨
        (∃ c, (swapConfig home now limit1 limit2 newConfigPath w).1 =
          some (.wrap "failed to backup current config" c)) ∨
        (∃ c, (swapConfig home now limit1 limit2 newConfigPath w).1 =
          some (.wrap "failed to set new config" (.path "open" newConfigPath c)))) ∧
      (∀ A, readFile w.fs (kubeConfigPath home) = some A → backupDirUsable home w.fs = true →
        backupSlotUsable home now w.fs = true → noFault limit1 A = true →
        ∃ c, (swapConfig home now limit1 limit2 newConfigPath w).1 =
          some (.wrap "failed to set new config" (.path "open" newConfigPath c))) := by
  have hc1 : lookup (os.MkdirAll w.fs (backupDir home)).2 (kubeConfigPath home) = some n := by
    rw [MkdirAll_off_path _ _ _ (not_kubeConfigPath_le_backupDir home)]; exact hcfg
  have hc2 : lookup (copyFile limit1 (kubeConfigPath home) (backupPath home now)
      (os.MkdirAll w.fs (backupDir home)).2).2 (kubeConfigPath home) = some n := by
    rw [copyFile_frame _ _ _ _ _ (kubeConfigPath_ne_backupPath home now)]; exact hc1
  have hn2 : lookup (copyFile limit1 (kubeConfigPath home) (backupPath home now)
      (os.MkdirAll w.fs (backupDir home)).2).2 newConfigPath = none := by
    rw [copyFile_frame _ _ _ _ _ hne, MkdirAll_off_path _ _ _ hpre]; exact hnew
  obtain ⟨c, hcopy⟩ := copyFile_src_absent limit2 (kubeConfigPath home) hn2
  have main : lookup (swapConfig home now limit1 limit2 newConfigPath w).2.fs
        (kubeConfigPath home) = some n ∧
      (swapConfig home now limit1 limit2 newConfigPath w).2.stdout = w.stdout ∧
      ((∃ c, (swapConfig home now limit1 limit2 newConfigPath w).1 =
          some (.wrap "failed to create backup directory" c)) ∨
        (∃ c, (swapConfig home now limit1 limit2 newConfigPath w).1 =
          some (.wrap "failed to backup current config" c)) ∨
        (∃ c, (swapConfig home now limit1 limit2 newConfigPath w).1 =
          some (.wrap "failed to set new config" (.path "open" newConfigPath c)))) := by
    rcases swapConfig_cases home now limit1 limit2 newConfigPath w with
      ⟨err, _, h⟩ | ⟨err, _, _, h⟩ | ⟨err, _, _, h1, h⟩ | ⟨_, _, h1, _⟩
    · rw [h]; exact ⟨hc1, rfl, Or.inl ⟨_, rfl⟩⟩
    · rw [h]; exact ⟨hc2, rfl, Or.inr (Or.inl ⟨_, rfl⟩)⟩
    · rw [h, hcopy]
      rw [hcopy] at h1
      simp only [Option.some.injEq] at h1
      subst h1
      exact ⟨hc2, rfl, Or.inr (Or.inr ⟨_, rfl⟩)⟩
    · rw [hcopy] at h1; simp at h1
  refine ⟨main.1, main.2.1, main.2.2, ?_⟩
  intro A hA hdir hslot hf
  obtain ⟨fs1, fs2, pd, pb, hmk, hcopy1, _, _, _, _⟩ :=
    backup_phase now hA hdir hslot hf
  rw [hmk] at hcopy
  simp only at hcopy
  rw [hcopy1] at hcopy
  simp only at hcopy
  refine ⟨c, ?_⟩
  unfold swapConfig
  simp only [hmk, hcopy1, hcopy]

theorem swapConfig_missing_replacement_witness :
    lookup (swapConfig homeU sampleTime none none ["tmp", "missing"] sampleWorld).2.fs
        (kubeConfigPath homeU) = some (.file filePerm [65]) ∧
      ∃ c, (swapConfig homeU sampleTime none none ["tmp", "missing"] sampleWorld).1 =
        some (.wrap "failed to set new config" (.path "open" ["tmp", "missing"] c)) :=
  have h := swapConfig_missing_replacement homeU sampleTime none none ["tmp", "missing"]
    sampleWorld (.file filePerm [65]) (by decide) (by decide) (by decide) (by decide)
  ⟨h.1, h.2.2.2 [65] (by decide) (by decide) (by decide) (by decide)⟩

/-- C5 (as stated) fails in three ways.  With the absent backup directory as the
replacement, the swap makes that directory, opens it and truncates the active
config before the copy fails; with the absent backup path as the replacement
the swap succeeds; with the path of the backup directory taken by a file the
error is that of the first step. -/
theorem swapConfig_missing_replacement_counterexample :
    (lookup sampleFS (kubeConfigPath homeU) = some (.file filePerm [65]) ∧
      lookup sampleFS (backupDir homeU) = none ∧
      (swapConfig homeU sampleTime none none (backupDir homeU) sampleWorld).1 =
        some (.wrap "failed to set new config"
          (.syscallPath "write" (kubeConfigPath homeU) "copy_file_range" .EISDIR)) ∧
      lookup (swapConfig homeU sampleTime none none (backupDir homeU) sampleWorld).2.fs
        (kubeConfigPath homeU) = some (.file filePerm [])) ∧
    (lookup sampleFS (backupPath homeU sampleTime) = none ∧
      (swapConfig homeU sampleTime none none (backupPath homeU sampleTime) sampleWorld).1 =
        none) ∧
    (lookup blockedFS (kubeConfigPath homeU) = some (.file filePerm [65]) ∧
      lookup blockedFS ["tmp", "missing"] = none ∧
      (swapConfig homeU sampleTime none none ["tmp", "missing"] ⟨blockedFS, []⟩).1 =
        some (.wrap "failed to create backup directory"
          (.path "mkdir" (backupDir homeU) .ENOTDIR))) := by
  refine ⟨?_, ?_, ?_⟩ <;> decide

/-- C10 (as amended): `copyFile` truncates its destination before it reads its
source, so a copy of the active config onto itself leaves it empty; when the
active config can be read and written, the backup directory and file are usable
and the device takes the backup, `swapConfig` with the active config as its own
replacement succeeds, leaves the active config empty and leaves the original
bytes in the backup file. -/
theorem swapConfig_self_replacement (home : Path) (now : Time) (limit1 limit2 : Option Nat)
    (w : World) (A : Bytes)
    (hcfg : readFile w.fs (kubeConfigPath home) = some A)
    (hwr : writableFile w.fs (kubeConfigPath home) = true)
    (hdir : backupDirUsable home w.fs = true)
    (hslot : backupSlotUsable home now w.fs = true)
    (hf1 : noFault limit1 A = true) :
    readFile (copyFile limit2 (kubeConfigPath home) (kubeConfigPath home) w.fs).2
        (kubeConfigPath home) = some [] ∧
      (swapConfig home now limit1 limit2 (kubeConfigPath home) w).1 = none ∧
      readFile (swapConfig home now limit1 limit2 (kubeConfigPath home) w).2.fs
        (kubeConfigPath home) = some [] ∧
      ∃ pb, lookup (swapConfig home now limit1 limit2 (kubeConfigPath home) w).2.fs
        (backupPath home now) = some (.file pb A) := by
  obtain ⟨pc, A1, hstatc, hcr, hcw⟩ := writableFile_eq_true hwr
  obtain ⟨pc1, hstatc1, _⟩ := readFile_eq_some.mp hcfg
  rw [hstatc] at hstatc1
  simp only [Except.ok.injEq, Node.file.injEq] at hstatc1
  obtain ⟨_, hA⟩ := hstatc1
  subst hA
  have selfCopy : ∀ fs : FS, stat fs (kubeConfigPath home) = .ok (.file pc A1) →
      copyFile limit2 (kubeConfigPath home) (kubeConfigPath home) fs =
        (none, store (store fs (kubeConfigPath home) (.file pc [])) (kubeConfigPath home)
          (.file pc [])) ∧
      readFile (store (store fs (kubeConfigPath home) (.file pc [])) (kubeConfigPath home)
          (.file pc [])) (kubeConfigPath home) = some [] := by
    intro fs hst
    refine ⟨copyFile_self limit2 hst hcr hcw, ?_⟩
    have hl := ((stat_ok_iff _ _ _).mp hst).2
    have hkept : DirsKept fs (store (store fs (kubeConfigPath home) (.file pc []))
        (kubeConfigPath home) (.file pc [])) := by
      intro q perm hq
      have hne : kubeConfigPath home ≠ q := by
        intro h; rw [← h, hl] at hq; simp at hq
      rw [lookup_store_ne _ _ _ _ hne, lookup_store_ne _ _ _ _ hne]; exact hq
    rw [readFile_eq_some]
    exact ⟨pc, stat_mono hkept hst (lookup_store_self _ _ _), hcr⟩
  obtain ⟨fs1, fs2, pd, pb, hmk, hcopy1, hlk2, _, _, hkept2⟩ :=
    backup_phase now hcfg hdir hslot hf1
  have hlc := ((stat_ok_iff _ _ _).mp hstatc).2
  have hstat2 : stat fs2 (kubeConfigPath home) = .ok (.file pc A1) := by
    apply stat_mono hkept2 hstatc
    rw [hlk2]
    simp [kubeConfigPath_ne_backupPath, kubeConfigPath_ne_backupDir, hlc]
  obtain ⟨hself0, hread0⟩ := selfCopy w.fs hstatc
  obtain ⟨hself2, hread2⟩ := selfCopy fs2 hstat2
  have hres : swapConfig home now limit1 limit2 (kubeConfigPath home) w =
      (none, ⟨store (store fs2 (kubeConfigPath home) (.file pc [])) (kubeConfigPath home)
          (.file pc []), w.stdout ++
        ["Successfully swapped to new config: " ++ pathString (kubeConfigPath home),
         "Old config backed up to: " ++ pathString (backupPath home now)]⟩) := by
    unfold swapConfig
    simp only [hmk, hcopy1, hself2]
  rw [hres, hself0]
  refine ⟨hread0, rfl, hread2, pb, ?_⟩
  have hne : kubeConfigPath home ≠ backupPath home now := kubeConfigPath_ne_backupPath home now
  show lookup (store _ _ _) _ = _
  rw [lookup_store_ne _ _ _ _ hne, lookup_store_ne _ _ _ _ hne, hlk2]
  simp

theorem swapConfig_self_replacement_witness :
    readFile (copyFile none (kubeConfigPath homeU) (kubeConfigPath homeU) sampleWorld.fs).2
        (kubeConfigPath homeU) = some [] ∧
      (swapConfig homeU sampleTime none none (kubeConfigPath homeU) sampleWorld).1 = none ∧
      readFile (swapConfig homeU sampleTime none none (kubeConfigPath homeU) sampleWorld).2.fs
        (kubeConfigPath homeU) = some [] ∧
      ∃ pb, lookup (swapConfig homeU sampleTime none none (kubeConfigPath homeU) sampleWorld).2.fs
        (backupPath homeU sampleTime) = some (.file pb [65]) :=
  swapConfig_self_replacement homeU sampleTime none none sampleWorld [65]
    (by decide) (by decide) (by decide) (by decide) (by decide)

/-- C10 (as stated) fails on file systems where the active config exists and a
step of the swap is blocked: with the path of the backup directory taken by a
file the call fails in its first step, and with an active config that may not
be written it fails in its last. -/
theorem swapConfig_self_replacement_counterexample :
    (readFile blockedFS (kubeConfigPath homeU) = some [65] ∧
      swapConfig homeU sampleTime none none (kubeConfigPath homeU) ⟨blockedFS, []⟩ =
        (some (.wrap "failed to create backup directory"
          (.path "mkdir" (backupDir homeU) .ENOTDIR)), ⟨blockedFS, []⟩)) ∧
    (readFile readOnlyFS (kubeConfigPath homeU) = some [65] ∧
      (swapConfig homeU sampleTime none none (kubeConfigPath homeU) ⟨readOnlyFS, []⟩).1 =
        some (.wrap "failed to set new config"
          (.path "open" (kubeConfigPath homeU) .EACCES)) ∧
      readFile (swapConfig homeU sampleTime none none (kubeConfigPath homeU)
        ⟨readOnlyFS, []⟩).2.fs (kubeConfigPath homeU) = some [65]) := by
  refine ⟨?_, ?_⟩ <;> decide

/-- C8: the backup path of a call is
`<home>/.kube/kubeswap_backups/config_backup_<YYYYMMDD_HHMMSS>` for the reading of
the local clock, and two readings give the same path exactly when they are in
the same second.  So two swaps in the same second, first to "B" and then to "C",
both succeed and use one backup file: after the first it holds the bytes "A" of
the first active config, after the second it holds "B", the active config holds
"C", and every other entry of the backup directory is as it was before the two
swaps. -/
theorem swapConfig_same_second (home : Path) (t1 t2 : Time) (l1 l2 l3 l4 : Option Nat)
    (pathB pathC : Path) (w : World) (A B C : Bytes)
    (hsame : sameSecond t1 t2)
    (hcfg : readFile w.fs (kubeConfigPath home) = some A)
    (hwr : writableFile w.fs (kubeConfigPath home) = true)
    (hB : readFile w.fs pathB = some B) (hC : readFile w.fs pathC = some C)
    (hdir : backupDirUsable home w.fs = true)
    (hslot : backupSlotUsable home t1 w.fs = true)
    (hB1 : pathB ≠ kubeConfigPath home) (hB2 : pathB ≠ backupPath home t1)
    (hC1 : pathC ≠ kubeConfigPath home) (hC2 : pathC ≠ backupPath home t1)
    (hf1 : noFault l1 A = true) (hf2 : noFault l2 B = true)
    (hf3 : noFault l3 B = true) (hf4 : noFault l4 C = true) :
    backupPath home t1 = backupPath home t2 ∧
      (swapConfig home t1 l1 l2 pathB w).1 = none ∧
      (swapConfig home t2 l3 l4 pathC (swapConfig home t1 l1 l2 pathB w).2).1 = none ∧
      (∃ pb, lookup (swapConfig home t1 l1 l2 pathB w).2.fs (backupPath home t1) =
        some (.file pb A)) ∧
      (∃ pb, lookup (swapConfig home t2 l3 l4 pathC (swapConfig home t1 l1 l2 pathB w).2).2.fs
        (backupPath home t2) = some (.file pb B)) ∧
      readFile (swapConfig home t2 l3 l4 pathC (swapConfig home t1 l1 l2 pathB w).2).2.fs
        (kubeConfigPath home) = some C ∧
      (∀ name, name ≠ "config_backup_" ++ t1.Format →
        lookup (swapConfig home t2 l3 l4 pathC (swapConfig home t1 l1 l2 pathB w).2).2.fs
          (backupDir home ++ [name]) = lookup w.fs (backupDir home ++ [name])) ∧
      (∀ t, validClock t → backupPath home t =
        home ++ [".kube", "kubeswap_backups", "config_backup_" ++ stampText t]) ∧
      (∀ s1 s2, validClock s1 → validClock s2 →
        (backupPath home s1 = backupPath home s2 ↔ sameSecond s1 s2)) := by
  have hbp := backupPath_sameSecond home hsame
  obtain ⟨fs3, pc, pd, pb, hres1, hlk3, ⟨hcr, hcw, hpdx, hpbr, hpbw⟩, hkept3, hwalk3⟩ :=
    swapConfig_ok hcfg hwr hB hdir hslot hB1 hB2 hf1 hf2
  obtain ⟨pn, hstatC, hnr⟩ := readFile_eq_some.mp hC
  have hlC := ((stat_ok_iff _ _ _).mp hstatC).2
  have hCbd : pathC ≠ backupDir home := by
    intro h
    rw [h] at hlC
    unfold backupDirUsable at hdir
    simp [hlC] at hdir
  have hlc3 : lookup fs3 (kubeConfigPath home) = some (.file pc B) := by rw [hlk3]; simp
  have hstatc3 : stat fs3 (kubeConfigPath home) = .ok (.file pc B) :=
    (stat_ok_iff _ _ _).mpr ⟨hwalk3, hlc3⟩
  have hcfg3 : readFile fs3 (kubeConfigPath home) = some B :=
    readFile_eq_some.mpr ⟨pc, hstatc3, hcr⟩
  have hwr3 : writableFile fs3 (kubeConfigPath home) = true :=
    writableFile_of_stat hstatc3 hcr hcw
  have hC3 : readFile fs3 pathC = some C := by
    rw [readFile_eq_some]
    refine ⟨pn, stat_mono hkept3 hstatC ?_, hnr⟩
    rw [hlk3]; simp [hC1, hC2, hCbd, hlC]
  have hdir3 : backupDirUsable home fs3 = true := by
    have h : lookup fs3 (backupDir home) = some (.dir pd) := by
      rw [hlk3]
      simp [(kubeConfigPath_ne_backupDir home).symm, backupDir_ne_backupPath]
    unfold backupDirUsable
    simp [h, hpdx]
  have hbp3 : lookup fs3 (backupPath home t1) = some (.file pb A) := by
    rw [hlk3]; simp [(kubeConfigPath_ne_backupPath home t1).symm]
  have hslot3 : backupSlotUsable home t2 fs3 = true := by
    unfold backupSlotUsable
    rw [← hbp]
    simp [hbp3, hpbr, hpbw]
  have hC2b : pathC ≠ backupPath home t2 := by rw [← hbp]; exact hC2
  obtain ⟨fs6, pc6, pd6, pb6, hres2, hlk6, ⟨hcr6, _⟩, _, hwalk6⟩ :=
    swapConfig_ok (w := ⟨fs3, w.stdout ++
        ["Successfully swapped to new config: " ++ pathString pathB,
         "Old config backed up to: " ++ pathString (backupPath home t1)]⟩)
      hcfg3 hwr3 hC3 hdir3 hslot3 hC1 hC2b hf3 hf4
  rw [hres1, hres2]
  refine ⟨hbp, rfl, rfl, ⟨pb, hbp3⟩, ⟨pb6, ?_⟩, ?_, ?_,
    fun t ht => backupPath_eq_stampText home t ht,
    fun s1 s2 hs1 hs2 =>
      ⟨sameSecond_of_backupPath home s1 s2 hs1 hs2, backupPath_sameSecond home⟩⟩
  · show lookup fs6 _ = _
    rw [hlk6]; simp [(kubeConfigPath_ne_backupPath home t2).symm]
  · rw [readFile_eq_some]
    refine ⟨pc6, (stat_ok_iff _ _ _).mpr ⟨hwalk6, ?_⟩, hcr6⟩
    show lookup fs6 _ = _
    rw [hlk6]; simp
  · intro name hname
    have hne1 : backupDir home ++ [name] ≠ backupPath home t1 := by
      intro h
      apply hname
      simpa [backupPath] using h
    have hne2 : backupDir home ++ [name] ≠ backupPath home t2 := by rw [← hbp]; exact hne1
    have hne3 : backupDir home ++ [name] ≠ backupDir home := by
      intro h
      have := congrArg List.length h
      simp at this
    show lookup fs6 _ = _
    rw [hlk6]
    simp only [child_ne_kubeConfigPath, hne2, hne3, if_false]
    show lookup fs3 _ = _
    rw [hlk3]
    simp only [child_ne_kubeConfigPath, hne1, hne3, if_false]

theorem swapConfig_same_second_witness :
    backupPath homeU sampleTime =
        ["home", "u", ".kube", "kubeswap_backups", "config_backup_20240305_070809"] ∧
      backupPath homeU sampleTime =
        homeU ++ [".kube", "kubeswap_backups", "config_backup_" ++ stampText sampleTime] ∧
      backupPath homeU sampleTime = backupPath homeU sampleTimeLater ∧
      (swapConfig homeU sampleTime none none ["tmp", "new"] sampleWorld).1 = none ∧
      (swapConfig homeU sampleTimeLater none none ["tmp", "other"]
        (swapConfig homeU sampleTime none none ["tmp", "new"] sampleWorld).2).1 = none ∧
      (∃ pb, lookup (swapConfig homeU sampleTime none none ["tmp", "new"] sampleWorld).2.fs
        (backupPath homeU sampleTime) = some (.file pb [65])) ∧
      (∃ pb, lookup (swapConfig homeU sampleTimeLater none none ["tmp", "other"]
        (swapConfig homeU sampleTime none none ["tmp", "new"] sampleWorld).2).2.fs
        (backupPath homeU sampleTimeLater) = some (.file pb [66])) ∧
      readFile (swapConfig homeU sampleTimeLater none none ["tmp", "other"]
        (swapConfig homeU sampleTime none none ["tmp", "new"] sampleWorld).2).2.fs
        (kubeConfigPath homeU) = some [67] ∧
      os.ReadDir (swapConfig homeU sampleTimeLater none none ["tmp", "other"]
        (swapConfig homeU sampleTime none none ["tmp", "new"] sampleWorld).2).2.fs
        (backupDir homeU) = .ok ["config_backup_20240305_070809"] :=
  have h := swapConfig_same_second homeU sampleTime sampleTimeLater none none none none
    ["tmp", "new"] ["tmp", "other"] sampleWorld [65] [66] [67]
    (by decide) (by decide) (by decide) (by decide) (by decide) (by decide) (by decide)
    (by decide) (by decide) (by decide) (by decide) (by decide) (by decide) (by decide)
    (by decide)
  ⟨by decide, h.2.2.2.2.2.2.2.1 sampleTime (by decide), h.1, h.2.1, h.2.2.1, h.2.2.2.1,
    h.2.2.2.2.1, h.2.2.2.2.2.1, by decide⟩

/-- C9 (as amended): one call of `swapConfig`, successful or not, makes no
directory but the backup directory and missing directories above it (only the
backup directory when `<home>/.kube` exists) and writes no file but the backup
file and the active config, the active config only after the backup copy has
succeeded; every other node, among them the replacement file when it is neither
of the two and the backups with another name, is as it was. -/
theorem swapConfig_footprint (home : Path) (now : Time) (limit1 limit2 : Option Nat)
    (newConfigPath : Path) (w : World) :
    (∀ q, q ≠ backupPath home now → q ≠ kubeConfigPath home →
      lookup (swapConfig home now limit1 limit2 newConfigPath w).2.fs q = lookup w.fs q ∨
        (lookup w.fs q = none ∧
          lookup (swapConfig home now limit1 limit2 newConfigPath w).2.fs q =
            some (.dir dirPerm) ∧ q <+: backupDir home)) ∧
    (∀ q, q = backupPath home now ∨ q = kubeConfigPath home →
      lookup (swapConfig home now limit1 limit2 newConfigPath w).2.fs q = lookup w.fs q ∨
        ∃ perm data,
          lookup (swapConfig home now limit1 limit2 newConfigPath w).2.fs q =
            some (.file perm data) ∧
          (lookup w.fs q = none ∨ ∃ old, lookup w.fs q = some (.file perm old))) ∧
    (lookup (swapConfig home now limit1 limit2 newConfigPath w).2.fs (kubeConfigPath home) ≠
        lookup w.fs (kubeConfigPath home) →
      ∃ fs1 fs2, os.MkdirAll w.fs (backupDir home) = (none, fs1) ∧
        copyFile limit1 (kubeConfigPath home) (backupPath home now) fs1 = (none, fs2)) ∧
    (∀ pk, stat w.fs (home ++ [".kube"]) = .ok (.dir pk) →
      ∀ q perm, lookup w.fs q = none →
        lookup (swapConfig home now limit1 limit2 newConfigPath w).2.fs q = some (.dir perm) →
        q = backupDir home) := by
  -- the three file systems a call goes through
  have hbpc := kubeConfigPath_ne_backupPath home now
  have f1_cfg : lookup (os.MkdirAll w.fs (backupDir home)).2 (kubeConfigPath home) =
      lookup w.fs (kubeConfigPath home) :=
    MkdirAll_off_path _ _ _ (not_kubeConfigPath_le_backupDir home)
  have f1_bp : lookup (os.MkdirAll w.fs (backupDir home)).2 (backupPath home now) =
      lookup w.fs (backupPath home now) :=
    MkdirAll_off_path _ _ _ (not_backupPath_le_backupDir home now)
  have f2_cfg : lookup (copyFile limit1 (kubeConfigPath home) (backupPath home now)
      (os.MkdirAll w.fs (backupDir home)).2).2 (kubeConfigPath home) =
      lookup w.fs (kubeConfigPath home) := by
    rw [copyFile_frame _ _ _ _ _ hbpc, f1_cfg]
  have f2_other : ∀ q, q ≠ backupPath home now →
      lookup (copyFile limit1 (kubeConfigPath home) (backupPath home now)
        (os.MkdirAll w.fs (backupDir home)).2).2 q =
      lookup (os.MkdirAll w.fs (backupDir home)).2 q :=
    fun q hq => copyFile_frame _ _ _ _ q hq
  have f3_other : ∀ q, q ≠ kubeConfigPath home →
      lookup (copyFile limit2 newConfigPath (kubeConfigPath home)
        (copyFile limit1 (kubeConfigPath home) (backupPath home now)
          (os.MkdirAll w.fs (backupDir home)).2).2).2 q =
      lookup (copyFile limit1 (kubeConfigPath home) (backupPath home now)
        (os.MkdirAll w.fs (backupDir home)).2).2 q :=
    fun q hq => copyFile_frame _ _ _ _ q hq
  -- the file system a call leaves is one of the three
  have hres : (swapConfig home now limit1 limit2 newConfigPath w).2.fs =
        (os.MkdirAll w.fs (backupDir home)).2 ∨
      (swapConfig home now limit1 limit2 newConfigPath w).2.fs =
        (copyFile limit1 (kubeConfigPath home) (backupPath home now)
          (os.MkdirAll w.fs (backupDir home)).2).2 ∨
      ((os.MkdirAll w.fs (backupDir home)).1 = none ∧
        (copyFile limit1 (kubeConfigPath home) (backupPath home now)
          (os.MkdirAll w.fs (backupDir home)).2).1 = none ∧
        (swapConfig home now limit1 limit2 newConfigPath w).2.fs =
          (copyFile limit2 newConfigPath (kubeConfigPath home)
            (copyFile limit1 (kubeConfigPath home) (backupPath home now)
              (os.MkdirAll w.fs (backupDir home)).2).2).2) := by
    rcases swapConfig_cases home now limit1 limit2 newConfigPath w with
      ⟨err, _, h⟩ | ⟨err, _, _, h⟩ | ⟨err, h1, h2, _, h⟩ | ⟨h1, h2, _, h⟩
    · left; rw [h]
    · right; left; rw [h]
    · right; right; exact ⟨h1, h2, by rw [h]⟩
    · right; right; exact ⟨h1, h2, by rw [h]⟩
  have off : ∀ q, q ≠ backupPath home now → q ≠ kubeConfigPath home →
      lookup (swapConfig home now limit1 limit2 newConfigPath w).2.fs q =
        lookup (os.MkdirAll w.fs (backupDir home)).2 q := by
    intro q hq1 hq2
    rcases hres with h | h | ⟨_, _, h⟩
    · rw [h]
    · rw [h, f2_other q hq1]
    · rw [h, f3_other q hq2, f2_other q hq1]
  have part2 : ∀ q, q = backupPath home now ∨ q = kubeConfigPath home →
      lookup (swapConfig home now limit1 limit2 newConfigPath w).2.fs q = lookup w.fs q ∨
        ∃ perm data,
          lookup (swapConfig home now limit1 limit2 newConfigPath w).2.fs q =
            some (.file perm data) ∧
          (lookup w.fs q = none ∨ ∃ old, lookup w.fs q = some (.file perm old)) := by
    intro q hq
    have hbp2 := copyFile_dst limit1 (kubeConfigPath home) (backupPath home now)
      (os.MkdirAll w.fs (backupDir home)).2
    rw [f1_bp] at hbp2
    have hcfg3 := copyFile_dst limit2 newConfigPath (kubeConfigPath home)
      (copyFile limit1 (kubeConfigPath home) (backupPath home now)
        (os.MkdirAll w.fs (backupDir home)).2).2
    rw [f2_cfg] at hcfg3
    rcases hq with hq | hq
    · subst hq
      rcases hres with h | h | ⟨_, _, h⟩
      · left; rw [h, f1_bp]
      · rw [h]; exact hbp2
      · rw [h, f3_other _ hbpc.symm]; exact hbp2
    · subst hq
      rcases hres with h | h | ⟨_, _, h⟩
      · left; rw [h, f1_cfg]
      · left; rw [h, f2_cfg]
      · rw [h]; exact hcfg3
  refine ⟨?_, part2, ?_, ?_⟩
  · intro q hq1 hq2
    rw [off q hq1 hq2]
    exact MkdirAll_frame w.fs (backupDir home) q
  · intro hchg
    rcases hres with h | h | ⟨h1, h2, _⟩
    · rw [h, f1_cfg] at hchg; exact absurd rfl hchg
    · rw [h, f2_cfg] at hchg; exact absurd rfl hchg
    · exact ⟨_, _, Prod.ext h1 rfl, Prod.ext h2 rfl⟩
  · intro pk hk q perm hnone hdirq
    have hq1 : q ≠ backupPath home now := by
      intro h
      rcases part2 q (Or.inl h) with h1 | ⟨p1, d1, h1, _⟩
      · rw [h1, hnone] at hdirq; simp at hdirq
      · rw [h1] at hdirq; simp at hdirq
    have hq2 : q ≠ kubeConfigPath home := by
      intro h
      rcases part2 q (Or.inr h) with h1 | ⟨p1, d1, h1, _⟩
      · rw [h1, hnone] at hdirq; simp at hdirq
      · rw [h1] at hdirq; simp at hdirq
    rw [off q hq1 hq2] at hdirq
    have he : backupDir home = (home ++ [".kube"]) ++ ["kubeswap_backups"] := by
      simp [backupDir]
    rcases MkdirAll_one "kubeswap_backups" hk with h | h
    · rw [he, h, hnone] at hdirq; simp at hdirq
    · rw [he, h, lookup_store] at hdirq
      by_cases hq : home ++ [".kube"] ++ ["kubeswap_backups"] = q
      · rw [he]; exact hq.symm
      · rw [if_neg hq, hnone] at hdirq
        simp at hdirq

theorem swapConfig_footprint_witness :
    (lookup (swapConfig homeU sampleTime none none ["tmp", "new"] sampleWorld).2.fs
        ["tmp", "new"] = lookup sampleFS ["tmp", "new"] ∨
      (lookup sampleFS ["tmp", "new"] = none ∧
        lookup (swapConfig homeU sampleTime none none ["tmp", "new"] sampleWorld).2.fs
          ["tmp", "new"] = some (.dir dirPerm) ∧ ["tmp", "new"] <+: backupDir homeU)) ∧
    (∀ q perm, lookup sampleFS q = none →
      lookup (swapConfig homeU sampleTime none none ["tmp", "new"] sampleWorld).2.fs q =
        some (.dir perm) → q = backupDir homeU) :=
  have h := swapConfig_footprint homeU sampleTime none none ["tmp", "new"] sampleWorld
  ⟨h.1 ["tmp", "new"] (by decide) (by decide), h.2.2.2 dirPerm (by decide)⟩

/-- C9 (as stated) fails when `<home>/.kube` is absent: one failing call makes
two directories, `<home>/.kube` and the backup directory. -/
theorem swapConfig_footprint_counterexample :
    lookup bareFS (homeU ++ [".kube"]) = none ∧
    lookup bareFS (backupDir homeU) = none ∧
    swapConfig homeU sampleTime none none ["tmp", "new"] ⟨bareFS, []⟩ =
      (some (.wrap "failed to backup current config"
        (.path "open" (kubeConfigPath homeU) .ENOENT)),
       ⟨bareFS ++ [(homeU ++ [".kube"], .dir dirPerm), (backupDir homeU, .dir dirPerm)], []⟩) ∧
    lookup (swapConfig homeU sampleTime none none ["tmp", "new"] ⟨bareFS, []⟩).2.fs
      (homeU ++ [".kube"]) = some (.dir dirPerm) ∧
    lookup (swapConfig homeU sampleTime none none ["tmp", "new"] ⟨bareFS, []⟩).2.fs
      (backupDir homeU) = some (.dir dirPerm) := by
  decide

/-! ## The listing -/

/-- C6: on a backup directory that can be read, `listConfigs` succeeds and
prints, after its header line, the names the enumeration yields that start with
"config_backup_", in the order of the enumeration and nothing else: a name is
among the printed entries exactly when the directory has an entry of that name
and the name has the prefix, and no name is printed twice. -/
theorem listConfigs_prints_backups (home : Path) (w : World) (files : List String)
    (hread : os.ReadDir w.fs (backupDir home) = .ok files) :
    listConfigs home w =
        (none, ⟨w.fs, (w.stdout ++ ["Available kubectl config backups:"]) ++
          files.filter (fun name => hasPrefix name "config_backup_")⟩) ∧
      (∀ name, name ∈ files.filter (fun name => hasPrefix name "config_backup_") ↔
        lookup w.fs (backupDir home ++ [name]) ≠ none ∧ ∃ rest, name = "config_backup_" ++ rest) ∧
      (files.filter (fun name => hasPrefix name "config_backup_")).Nodup := by
  have hfiles := ReadDir_ok hread
  refine ⟨?_, ?_, ?_⟩
  · unfold listConfigs
    simp only [hread, printBackups_eq_filter]
  · intro name
    rw [List.mem_filter, hfiles, mem_children, hasPrefix_iff]
  · apply List.Nodup.filter
    rw [hfiles]
    exact (children_sorted _ _).imp (fun h => ne_of_lt h)

theorem listConfigs_prints_backups_witness :
    listConfigs homeU ⟨listingFS, []⟩ =
      (none, ⟨listingFS, ["Available kubectl config backups:",
        "config_backup_20230101_000000", "config_backup_20240305_070809",
        "config_backup_dir"]⟩) :=
  (listConfigs_prints_backups homeU ⟨listingFS, []⟩
    ["config_backup_20230101_000000", "config_backup_20240305_070809", "config_backup_dir",
      "notes.txt", "old_config_backup_1"] (by decide)).1.trans (by decide)

/-- C7 (as amended): on a backup directory that is absent, or that cannot be
read, `listConfigs` returns the error "failed to read backup directory" and
prints nothing, and the command exits with status 1; on a backup directory that
exists, can be read and has no entry, `listConfigs` prints its header line,
"Available kubectl config backups:", and nothing else, and returns success, and
the command exits with status 0. -/
theorem listConfigs_absent_or_empty (home : Path) (w : World) :
    (lookup w.fs (backupDir home) = none →
      ∃ e, listConfigs home w = (some (.wrap "failed to read backup directory" e), w) ∧
        (listCmdRun home w).1 = 1) ∧
    (∀ e, os.ReadDir w.fs (backupDir home) = .error e →
      listConfigs home w = (some (.wrap "failed to read backup directory" e), w) ∧
        (listCmdRun home w).1 = 1) ∧
    (∀ perm, stat w.fs (backupDir home) = .ok (.dir perm) → perm.r = true →
      (∀ name, lookup w.fs (backupDir home ++ [name]) = none) →
      listConfigs home w =
          (none, ⟨w.fs, w.stdout ++ ["Available kubectl config backups:"]⟩) ∧
        (listCmdRun home w).1 = 0) := by
  have herr : ∀ e, os.ReadDir w.fs (backupDir home) = .error e →
      listConfigs home w = (some (.wrap "failed to read backup directory" e), w) ∧
        (listCmdRun home w).1 = 1 := by
    intro e he
    have h : listConfigs home w = (some (.wrap "failed to read backup directory" e), w) := by
      unfold listConfigs
      simp only [he]
    refine ⟨h, ?_⟩
    unfold listCmdRun
    simp only [h]
  refine ⟨?_, herr, ?_⟩
  · intro habs
    obtain ⟨e, he⟩ := stat_error_of_lookup_none _ _ habs
    have hrd : os.ReadDir w.fs (backupDir home) = .error (.path "open" (backupDir home) e) := by
      unfold os.ReadDir
      simp only [he]
    exact ⟨_, herr _ hrd⟩
  · intro perm hst hr hempty
    have hch : os.children (backupDir home) w.fs = [] := by
      apply List.eq_nil_iff_forall_not_mem.mpr
      intro name hmem
      exact (mem_children _ _ _).mp hmem (hempty name)
    have hrd : os.ReadDir w.fs (backupDir home) = .ok [] := by
      unfold os.ReadDir
      simp only [hst, hr, if_true, hch]
    have h : listConfigs home w =
        (none, ⟨w.fs, w.stdout ++ ["Available kubectl config backups:"]⟩) := by
      unfold listConfigs
      simp only [hrd, printBackups, List.append_nil]
    refine ⟨h, ?_⟩
    unfold listCmdRun
    simp only [h]

theorem listConfigs_absent_or_empty_witness :
    (∃ e, listConfigs homeU sampleWorld =
        (some (.wrap "failed to read backup directory" e), sampleWorld) ∧
      (listCmdRun homeU sampleWorld).1 = 1) ∧
    (listConfigs homeU ⟨emptyBackupFS, []⟩ =
        (none, ⟨emptyBackupFS, [] ++ ["Available kubectl config backups:"]⟩) ∧
      (listCmdRun homeU ⟨emptyBackupFS, []⟩).1 = 0) :=
  ⟨(listConfigs_absent_or_empty homeU sampleWorld).1 (by decide),
   (listConfigs_absent_or_empty homeU ⟨emptyBackupFS, []⟩).2.2 dirPerm (by decide) (by decide)
     (by
       intro name
       simp [lookup, emptyBackupFS, backupDir, homeU])⟩

/-- C7 (as stated) fails on an empty backup directory: `listConfigs` succeeds but
has printed its header line. -/
theorem listConfigs_absent_or_empty_counterexample :
    os.ReadDir emptyBackupFS (backupDir homeU) = .ok [] ∧
    listConfigs homeU ⟨emptyBackupFS, []⟩ =
      (none, ⟨emptyBackupFS, ["Available kubectl config backups:"]⟩) ∧
    (listConfigs homeU ⟨emptyBackupFS, []⟩).2.stdout ≠ [] := by
  decide

end Kubeswap
